import Mathlib

/-!
Verification of the saga-orchestration core of the demo-saga-pattern
repository (`app/saga/saga_orchestrator.py`, `app/saga/saga_models.py`,
`app/database.py`), shallowly embedded in Lean 4.

Python dictionaries are modelled as association lists with first-match
lookup and in-place overwrite on update; Python truthiness of an optional
string / optional dict (`if step.rollback_url and step.result:`) is made
explicit by `truthyStr` / `truthyDict`.  The remote participants
(`requests.request`) are abstracted by an environment that yields, per step
index, the outcome of the forward call and of the compensation call: a
normal HTTP response, a `requests.exceptions.RequestException`, or (for the
forward path) any other, unanticipated exception.  Timestamps
(`datetime.now().isoformat()`) and the uuid generated inside
`SharedDatabase.create_transaction` are likewise supplied by the
environment.
-/

namespace SagaDemo

/-- Lookup in a Python-dict-like association list: first matching key. -/
def assocGet {α : Type} : List (String × α) → String → Option α
  | [], _ => none
  | (k', v) :: rest, k => if k' = k then some v else assocGet rest k

/-- Update of a Python-dict-like association list: overwrite the value of an
existing key in place, otherwise append the binding at the end (Python dict
insertion-order semantics). -/
def assocSet {α : Type} : List (String × α) → String → α → List (String × α)
  | [], k, v => [(k, v)]
  | (k', v') :: rest, k, v =>
    if k' = k then (k', v) :: rest else (k', v') :: assocSet rest k v

/-- Membership test, Python's `k in d`. -/
def assocHas {α : Type} (d : List (String × α)) (k : String) : Bool :=
  (assocGet d k).isSome

/-- A JSON-ish flat payload / result dictionary (`Dict[str, Any]` whose
values the orchestrator only ever copies around or substitutes as strings). -/
abbrev Dict := List (String × String)

/-- Python truthiness of an `Optional[str]` field. -/
def truthyStr : Option String → Bool
  | none => false
  | some s => s ≠ ""

/-- Python truthiness of an `Optional[Dict]` field (an empty dict is falsy). -/
def truthyDict : Option Dict → Bool
  | none => false
  | some d => d ≠ []

/-- `SagaStepStatus` from `saga_models.py`. -/
inductive SagaStepStatus where
  | pending
  | in_progress
  | completed
  | failed
  | compensated
deriving DecidableEq

/-- The `.value` string of a `SagaStepStatus`. -/
def SagaStepStatus.value : SagaStepStatus → String
  | .pending => "pending"
  | .in_progress => "in_progress"
  | .completed => "completed"
  | .failed => "failed"
  | .compensated => "compensated"

/-- `SagaTransactionStatus` from `saga_models.py`. -/
inductive SagaTransactionStatus where
  | pending
  | in_progress
  | completed
  | failed
  | compensating
  | compensated
deriving DecidableEq

/-- The `.value` string of a `SagaTransactionStatus`. -/
def SagaTransactionStatus.value : SagaTransactionStatus → String
  | .pending => "pending"
  | .in_progress => "in_progress"
  | .completed => "completed"
  | .failed => "failed"
  | .compensating => "compensating"
  | .compensated => "compensated"

/-- The `SagaStep` dataclass from `saga_models.py` (after `__post_init__`,
so `payload` is a dict and `created_at` a string). -/
structure SagaStep where
  step_id : String
  name : String
  url : String
  method : String := "POST"
  payload : Dict := []
  rollback_url : Option String := none
  rollback_method : String := "DELETE"
  status : SagaStepStatus := .pending
  result : Option Dict := none
  error : Option String := none
  created_at : String := ""
  completed_at : Option String := none
deriving DecidableEq

/-- The `SagaTransaction` dataclass from `saga_models.py`. -/
structure SagaTransaction where
  transaction_id : String
  name : String
  steps : List SagaStep
  status : SagaTransactionStatus := .pending
  current_step_index : Nat := 0
  metadata : Dict := []
  created_at : String := ""
  updated_at : String := ""
deriving DecidableEq

/-- `SagaTransaction.get_completed_steps`: the steps whose status is
`completed`, in list (execution) order. -/
def SagaTransaction.get_completed_steps (t : SagaTransaction) : List SagaStep :=
  t.steps.filter (fun s => s.status = SagaStepStatus.completed)

/-- Outcome of one forward HTTP call (`requests.request` in
`_execute_step`): a response whose JSON body parsed to `body`, a
`requests.exceptions.RequestException`, or any other exception (which
`_execute_step` does not catch). -/
inductive CallOutcome where
  | response (code : Nat) (body : Dict) (text : String)
  | requestExc (msg : String)
  | otherExc (msg : String)
deriving DecidableEq

/-- Outcome of one compensation HTTP call (`requests.request` in
`_execute_rollback_step`). -/
inductive RollbackOutcome where
  | response (code : Nat)
  | requestExc (msg : String)
deriving DecidableEq

/-- `SagaOrchestrator._prepare_step_payload`, inner propagation of one
completed step's result into the payload: the keys `event_id`, `venue_id`
and `details_id` are copied (in that order) when present. -/
def propagateIds (payload : Dict) (r : Dict) : Dict :=
  let p1 := match assocGet r ("event_id") with
    | some v => assocSet payload ("event_id") v
    | none => payload
  let p2 := match assocGet r ("venue_id") with
    | some v => assocSet p1 ("venue_id") v
    | none => p1
  match assocGet r ("details_id") with
  | some v => assocSet p2 ("details_id") v
  | none => p2

/-- `SagaOrchestrator._prepare_step_payload`: start from a copy of the
step's own payload template, then for every completed step of the
transaction whose result is truthy, copy its `event_id` / `venue_id` /
`details_id` entries into the payload. -/
def prepare_step_payload (step : SagaStep) (t : SagaTransaction) : Dict :=
  t.get_completed_steps.foldl
    (fun payload cs =>
      if truthyDict cs.result then propagateIds payload (cs.result.getD []) else payload)
    step.payload

/-- Result of `SagaOrchestrator._execute_step` on one step: either the loop
contract's boolean (with the updated step and the payload that was sent), or
an unanticipated exception propagating out of the method, leaving the step
as it was at the moment of the raise (status `in_progress`). -/
inductive StepExecResult where
  | done (step : SagaStep) (success : Bool) (payload : Dict)
  | exc (step : SagaStep) (msg : String) (payload : Dict)
deriving DecidableEq

/-- `SagaOrchestrator._execute_step`: mark the step `in_progress`, build the
outgoing payload from earlier completed steps, issue the call, and classify
the outcome.  `now` is the completion timestamp the code takes from
`datetime.now().isoformat()`. -/
def execute_step (step : SagaStep) (t : SagaTransaction) (outcome : CallOutcome)
    (now : String) : StepExecResult :=
  let stepIP := { step with status := SagaStepStatus.in_progress }
  let payload := prepare_step_payload stepIP t
  match outcome with
  | .response code body text =>
    if code = 200 ∨ code = 201 then
      .done { stepIP with
                status := SagaStepStatus.completed
                result := some body
                completed_at := some now } true payload
    else
      .done { stepIP with
                status := SagaStepStatus.failed
                error := some ("HTTP " ++ toString code ++ ": " ++ text)
                completed_at := some now } false payload
  | .requestExc msg =>
      .done { stepIP with
                status := SagaStepStatus.failed
                error := some ("Request failed: " ++ msg)
                completed_at := some now } false payload
  | .otherExc msg => .exc stepIP msg payload

/-- URL templating in `_execute_rollback_step`: every key of the step's
result that ends in `_id` has its `\x7bkey\x7d` placeholder in the rollback
URL replaced by the value. -/
def substitute_ids (url : String) (r : Dict) : String :=
  r.foldl
    (fun u kv =>
      if kv.1.endsWith ("_id") then
        u.replace ("\x7b" ++ kv.1 ++ "\x7d") kv.2
      else u)
    url

/-- `SagaOrchestrator._execute_rollback_step`: substitute identifiers into
the rollback URL, issue the compensation call, and mark the step
`compensated` only on a 200/204 response; a non-success response or a
`RequestException` is logged and otherwise ignored.  Returns the updated
step and the URL that was called. -/
def execute_rollback_step (step : SagaStep) (outcome : RollbackOutcome) :
    SagaStep × String :=
  let url0 := step.rollback_url.getD ""
  let url := if truthyDict step.result then substitute_ids url0 (step.result.getD []) else url0
  match outcome with
  | .response code =>
    if code = 200 ∨ code = 204 then
      ({ step with status := SagaStepStatus.compensated }, url)
    else (step, url)
  | .requestExc _ => (step, url)

/-- Whether the step at index `i` has status `completed`. -/
def completedPred (steps : List SagaStep) (i : Nat) : Bool :=
  match steps[i]? with
  | some s => s.status = SagaStepStatus.completed
  | none => false

/-- Indices of the steps whose status is `completed`, in list order (the
index view of `get_completed_steps`). -/
def completedIdxs (steps : List SagaStep) : List Nat :=
  (List.range steps.length).filter (completedPred steps)

/-- The reverse sweep of `SagaOrchestrator._execute_rollback` over a list of
step indices: steps with a truthy rollback URL and a truthy result get one
compensation call each (`comp i` is that call's outcome); the others are
skipped.  Returns the updated step list and the log of compensation calls
(index and called URL) in issue order. -/
def rollbackSweep (steps : List SagaStep) (comp : Nat → RollbackOutcome) :
    List Nat → List SagaStep × List (Nat × String)
  | [] => (steps, [])
  | i :: rest =>
    match steps[i]? with
    | none => rollbackSweep steps comp rest
    | some s =>
      if truthyStr s.rollback_url && truthyDict s.result then
        let r := execute_rollback_step s (comp i)
        let tail := rollbackSweep (steps.set i r.1) comp rest
        (tail.1, (i, r.2) :: tail.2)
      else rollbackSweep steps comp rest

/-- `SagaOrchestrator._execute_rollback`: compensate the completed steps in
reverse order. -/
def execute_rollback (t : SagaTransaction) (comp : Nat → RollbackOutcome) :
    SagaTransaction × List (Nat × String) :=
  let swept := rollbackSweep t.steps comp (completedIdxs t.steps).reverse
  ({ t with steps := swept.1 }, swept.2)

/-- Serialized form of one step inside `SagaTransaction.to_dict()['steps']`
(statuses rendered through `.value`). -/
structure SagaStepDict where
  step_id : String
  name : String
  url : String
  method : String
  payload : Dict
  rollback_url : Option String
  rollback_method : String
  status : String
  result : Option Dict
  error : Option String
  created_at : String
  completed_at : Option String
deriving DecidableEq

/-- The per-step part of `SagaTransaction.to_dict`. -/
def SagaStep.to_dict (s : SagaStep) : SagaStepDict :=
  { step_id := s.step_id, name := s.name, url := s.url, method := s.method
    payload := s.payload, rollback_url := s.rollback_url
    rollback_method := s.rollback_method, status := s.status.value
    result := s.result, error := s.error, created_at := s.created_at
    completed_at := s.completed_at }

/-- Values stored in a Registry record (`SharedDatabase.transactions`): the
heterogeneous Python dict values that `create_transaction` /
`update_transaction` actually receive. -/
inductive RVal where
  | str (v : String)
  | nat (v : Nat)
  | strList (v : List String)
  | dict (v : Dict)
  | stepList (v : List SagaStepDict)
deriving DecidableEq

/-- One record of the `transactions` table, a Python dict. -/
abbrev TxRec := List (String × RVal)

/-- Python `dict.update(updates)` on a record. -/
def recUpdate (r : TxRec) (updates : TxRec) : TxRec :=
  updates.foldl (fun acc kv => assocSet acc kv.1 kv.2) r

/-- The `transactions` table of `SharedDatabase` (`app/database.py`), keyed
by transaction id.  The four resource tables are CRUD collaborators outside
the orchestration core and are not needed by any claim. -/
structure SharedDatabase where
  transactions : List (String × TxRec)
deriving DecidableEq

/-- The empty database (`SharedDatabase.__init__`). -/
def SharedDatabase.empty : SharedDatabase := { transactions := [] }

/-- `SharedDatabase.create_transaction`: generate a fresh uuid (`freshId`),
store the record under that uuid — the caller-supplied `'id'` entry of
`transaction_data` is ignored — and return the new id. -/
def create_transaction (dbs : SharedDatabase) (transaction_data : TxRec)
    (freshId : String) (now : String) : SharedDatabase × String :=
  let record : TxRec :=
    [("id", RVal.str freshId),
     ("status", (assocGet transaction_data ("status")).getD (RVal.str ("pending"))),
     ("steps", (assocGet transaction_data ("steps")).getD (RVal.strList [])),
     ("created_at", RVal.str now),
     ("updated_at", RVal.str now),
     ("metadata", (assocGet transaction_data ("metadata")).getD (RVal.dict []))]
  ({ dbs with transactions := assocSet dbs.transactions freshId record }, freshId)

/-- `SharedDatabase.update_transaction`: merge `updates` into the record at
`transaction_id` and refresh `updated_at`, returning `true`; if the id is
absent, return `false` and leave the store untouched. -/
def update_transaction (dbs : SharedDatabase) (transaction_id : String)
    (updates : TxRec) (now : String) : SharedDatabase × Bool :=
  match assocGet dbs.transactions transaction_id with
  | some record =>
    let record' := assocSet (recUpdate record updates) ("updated_at") (RVal.str now)
    ({ dbs with transactions := assocSet dbs.transactions transaction_id record' }, true)
  | none => (dbs, false)

/-- `SharedDatabase.get_transaction`: lookup by id. -/
def get_transaction (dbs : SharedDatabase) (transaction_id : String) : Option TxRec :=
  assocGet dbs.transactions transaction_id

/-- `SagaTransaction.to_dict` (serialization used for status queries). -/
def SagaTransaction.to_dict (t : SagaTransaction) : TxRec :=
  [("transaction_id", RVal.str t.transaction_id),
   ("name", RVal.str t.name),
   ("status", RVal.str t.status.value),
   ("current_step_index", RVal.nat t.current_step_index),
   ("metadata", RVal.dict t.metadata),
   ("created_at", RVal.str t.created_at),
   ("updated_at", RVal.str t.updated_at),
   ("steps", RVal.stepList (t.steps.map SagaStep.to_dict))]

/-- The summary dict returned by `SagaOrchestrator.execute_saga`; keys that
only some branches emit are `Option`s. -/
structure SagaSummary where
  success : Bool
  transaction_id : String
  status : String
  message : String
  failed_step : Option String := none
  rollback_completed : Option Bool := none
  completed_steps : Option Nat := none
deriving DecidableEq

/-- The environment a saga execution runs against: per step index, the
outcome of the forward call and of the compensation call, the completion
timestamp `datetime.now().isoformat()` observed by that step, the uuid
generated inside `create_transaction`, and the wall-clock string used for
the transaction-level timestamps. -/
structure SagaEnv where
  invoke : Nat → CallOutcome
  compensate : Nat → RollbackOutcome
  stepTime : Nat → String
  dbFreshId : String
  now : String

/-- Result of the forward loop of `execute_saga` (lines 50–79): all steps
succeeded, the loop stopped at a failed step, or an unanticipated exception
escaped to the outer handler.  Carries the transaction as mutated so far and
the log of forward calls (step index, outgoing payload) in issue order. -/
inductive LoopResult where
  | allDone (t : SagaTransaction) (calls : List (Nat × Dict))
  | failedAt (t : SagaTransaction) (i : Nat) (failedName : String) (calls : List (Nat × Dict))
  | excAt (t : SagaTransaction) (msg : String) (calls : List (Nat × Dict))
deriving DecidableEq

/-- The `for i, step in enumerate(saga_transaction.steps)` loop of
`execute_saga`, over the list of step indices: set the current-step index,
run `_execute_step` (whose in-place `in_progress` marking is reflected into
the transaction), and continue, stop at the first failure, or surface an
unanticipated exception. -/
def sagaLoop (env : SagaEnv) : SagaTransaction → List Nat → LoopResult
  | t, [] => .allDone t []
  | t, i :: rest =>
    match t.steps[i]? with
    | none => .allDone t []
    | some step =>
      let t1 : SagaTransaction :=
        { t with current_step_index := i,
                 steps := t.steps.set i { step with status := SagaStepStatus.in_progress } }
      match execute_step step t1 (env.invoke i) (env.stepTime i) with
      | .exc s' msg p => .excAt { t1 with steps := t1.steps.set i s' } msg [(i, p)]
      | .done s' ok p =>
        let t2 : SagaTransaction := { t1 with steps := t1.steps.set i s' }
        if ok then
          match sagaLoop env t2 rest with
          | .allDone t3 calls => .allDone t3 ((i, p) :: calls)
          | .failedAt t3 j nm calls => .failedAt t3 j nm ((i, p) :: calls)
          | .excAt t3 m calls => .excAt t3 m ((i, p) :: calls)
        else .failedAt t2 i step.name [(i, p)]

/-- Everything observable after one `execute_saga` run: the final
transaction object, the Registry, the orchestrator's `active_transactions`
map, the returned summary, and the logs of forward and compensation calls. -/
structure SagaRun where
  transaction : SagaTransaction
  db : SharedDatabase
  active : List (String × SagaTransaction)
  summary : SagaSummary
  forwardCalls : List (Nat × Dict)
  compCalls : List (Nat × String)

/-- `SagaOrchestrator.execute_saga`: register the transaction in
`active_transactions` and the Registry, mark it `in_progress`, run the step
loop, and on the three outcomes finish as the code does — success summary;
rollback, `compensated`, failure summary with `rollback_completed`; or
`failed` with the error recorded — updating the Registry in each branch. -/
def execute_saga (active0 : List (String × SagaTransaction)) (db0 : SharedDatabase)
    (env : SagaEnv) (t0 : SagaTransaction) : SagaRun :=
  let active := assocSet active0 t0.transaction_id t0
  let created := create_transaction db0
    [("id", RVal.str t0.transaction_id),
     ("status", RVal.str t0.status.value),
     ("steps", RVal.strList (t0.steps.map SagaStep.name)),
     ("metadata", RVal.dict t0.metadata)]
    env.dbFreshId env.now
  let db1 := created.1
  let t1 : SagaTransaction := { t0 with status := SagaTransactionStatus.in_progress,
                                        updated_at := env.now }
  match sagaLoop env t1 (List.range t1.steps.length) with
  | .allDone t2 calls =>
    let t3 : SagaTransaction := { t2 with status := SagaTransactionStatus.completed,
                                          updated_at := env.now }
    let upd := update_transaction db1 t3.transaction_id
      [("status", RVal.str t3.status.value),
       ("steps", RVal.stepList (t3.steps.map SagaStep.to_dict))] env.now
    { transaction := t3, db := upd.1,
      active := assocSet active t3.transaction_id t3,
      summary := { success := true, transaction_id := t3.transaction_id,
                   status := t3.status.value,
                   message := "All steps completed successfully",
                   completed_steps := some t3.steps.length },
      forwardCalls := calls, compCalls := [] }
  | .failedAt t2 _i failedName calls =>
    let t2c : SagaTransaction := { t2 with status := SagaTransactionStatus.compensating }
    let rb := execute_rollback t2c env.compensate
    let t3 : SagaTransaction := { rb.1 with status := SagaTransactionStatus.compensated }
    let upd := update_transaction db1 t3.transaction_id
      [("status", RVal.str t3.status.value),
       ("steps", RVal.stepList (t3.steps.map SagaStep.to_dict))] env.now
    { transaction := t3, db := upd.1,
      active := assocSet active t3.transaction_id t3,
      summary := { success := false, transaction_id := t3.transaction_id,
                   status := t3.status.value,
                   message := "Saga failed at step: " ++ failedName,
                   failed_step := some failedName,
                   rollback_completed := some true },
      forwardCalls := calls, compCalls := rb.2 }
  | .excAt t2 msg calls =>
    let t3 : SagaTransaction := { t2 with status := SagaTransactionStatus.failed }
    let upd := update_transaction db1 t3.transaction_id
      [("status", RVal.str t3.status.value),
       ("error", RVal.str msg)] env.now
    { transaction := t3, db := upd.1,
      active := assocSet active t3.transaction_id t3,
      summary := { success := false, transaction_id := t3.transaction_id,
                   status := t3.status.value,
                   message := "Saga execution failed: " ++ msg },
      forwardCalls := calls, compCalls := [] }

/-- `SagaOrchestrator.get_transaction_status`: prefer the in-memory active
transaction (serialized with `to_dict`), else fall back to the Registry. -/
def get_transaction_status (active : List (String × SagaTransaction))
    (dbs : SharedDatabase) (transaction_id : String) : Option TxRec :=
  match assocGet active transaction_id with
  | some t => some t.to_dict
  | none => get_transaction dbs transaction_id

/-- The `/status/<transaction_id>` route `get_saga_status`: HTTP status code
and JSON body; a falsy lookup result yields a 404 not-found body. -/
def get_saga_status (active : List (String × SagaTransaction))
    (dbs : SharedDatabase) (transaction_id : String) : Nat × TxRec :=
  match get_transaction_status active dbs transaction_id with
  | some st =>
    if st ≠ [] then (200, st)
    else (404, [("error", RVal.str ("Transaction not found"))])
  | none => (404, [("error", RVal.str ("Transaction not found"))])

/-! Statement-side helpers: observations about outcomes and the step
transformations that `_execute_step` / `_execute_rollback_step` perform,
used to phrase the theorems below. -/

/-- A forward call outcome the code classifies as success (HTTP 200/201). -/
def CallOutcome.isSuccess : CallOutcome → Bool
  | .response code _ _ => code == 200 || code == 201
  | .requestExc _ => false
  | .otherExc _ => false

/-- A forward call outcome the code classifies as a step failure (non-2xx
response or `RequestException`) — as opposed to an unanticipated exception. -/
def CallOutcome.isFail : CallOutcome → Bool
  | .response code _ _ => !(code == 200 || code == 201)
  | .requestExc _ => true
  | .otherExc _ => false

/-- The parsed JSON body of a response outcome. -/
def CallOutcome.body : CallOutcome → Dict
  | .response _ body _ => body
  | .requestExc _ => []
  | .otherExc _ => []

/-- A compensation call outcome the code recognizes as success (200/204). -/
def RollbackOutcome.isOk : RollbackOutcome → Bool
  | .response code => code == 200 || code == 204
  | .requestExc _ => false

/-- The step record `_execute_step` leaves behind on success. -/
def markCompleted (s : SagaStep) (body : Dict) (now : String) : SagaStep :=
  { s with status := SagaStepStatus.completed, result := some body,
           completed_at := some now }

/-- The step record `_execute_step` leaves behind on failure. -/
def markFailed (s : SagaStep) (err : String) (now : String) : SagaStep :=
  { s with status := SagaStepStatus.failed, error := some err,
           completed_at := some now }

/-- What the forward execution of step `i` turns a step record into, as a
function of the environment's outcome for index `i` (for an unanticipated
exception the step is left marked `in_progress`). -/
def stepOutcome (env : SagaEnv) (i : Nat) (s : SagaStep) : SagaStep :=
  match env.invoke i with
  | .response code body text =>
    if code = 200 ∨ code = 201 then markCompleted s body (env.stepTime i)
    else markFailed s ("HTTP " ++ toString code ++ ": " ++ text) (env.stepTime i)
  | .requestExc msg => markFailed s ("Request failed: " ++ msg) (env.stepTime i)
  | .otherExc _ => { s with status := SagaStepStatus.in_progress }

/-- What the rollback sweep turns the step record at index `i` into: a
compensable step is marked `compensated` exactly when its one compensation
call returns 200/204; anything else is left as it is. -/
def compStep (comp : Nat → RollbackOutcome) (i : Nat) (s : SagaStep) : SagaStep :=
  if truthyStr s.rollback_url && truthyDict s.result then
    match comp i with
    | .response code =>
      if code = 200 ∨ code = 204 then { s with status := SagaStepStatus.compensated }
      else s
    | .requestExc _ => s
  else s

/-- The guard of `_execute_rollback`'s sweep at index `i` of a step list:
`if step.rollback_url and step.result`. -/
def sweepPred (steps : List SagaStep) (i : Nat) : Bool :=
  match steps[i]? with
  | some s => truthyStr s.rollback_url && truthyDict s.result
  | none => false

/-- A step that is compensable after its forward success: it carries a
truthy rollback URL and the captured result (the response body) is truthy. -/
def compensableAfter (t : SagaTransaction) (env : SagaEnv) (j : Nat) : Bool :=
  match t.steps[j]? with
  | some s => truthyStr s.rollback_url && truthyDict (some ((env.invoke j).body))
  | none => false

/-- A step record as `execute` expects it at the start of a run: `pending`,
with no result, error or completion timestamp yet. -/
@[reducible]
def freshStep (s : SagaStep) : Prop :=
  s.status = SagaStepStatus.pending ∧ s.result = none ∧ s.error = none ∧
    s.completed_at = none

/-- The per-step invariant of the spec: the captured result and captured
error are mutually exclusive, and the completion timestamp is present — with
the value stamped at the step's own terminal forward transition, `time` —
exactly when the step has left the non-terminal statuses `pending` /
`in_progress` (compensation never touches it). -/
@[reducible]
def StepInv (time : String) (s : SagaStep) : Prop :=
  (s.result = none ∨ s.error = none) ∧
  s.completed_at =
    (if s.status = SagaStepStatus.pending ∨ s.status = SagaStepStatus.in_progress
     then none else some time)

/-- The per-completed-step payload transformation performed by the loop body
of `_prepare_step_payload`, as a named function. -/
def payloadStepF (payload : Dict) (cs : SagaStep) : Dict :=
  if truthyDict cs.result then propagateIds payload (cs.result.getD []) else payload

/-- One completed step's contribution to the propagated value of key `k`: a
truthy result containing `k` overwrites the accumulator. -/
def propStepF (k : String) (acc : Option String) (cs : SagaStep) : Option String :=
  if truthyDict cs.result then
    match assocGet (cs.result.getD []) k with
    | some v => some v
    | none => acc
  else acc

/-- The identifier value `_prepare_step_payload` would propagate for key
`k`: the value of `k` in the last truthy result among the transaction's
completed steps, in completion (list) order. -/
def propagatedVal (t : SagaTransaction) (k : String) : Option String :=
  t.get_completed_steps.foldl (propStepF k) none

/-! Concrete fixtures used by counterexamples and witnesses. -/

/-- A step fixture with the given identity, payload template and rollback
URL. -/
def sampleStep (sid nm u : String) (pl : Dict) (ru : Option String) : SagaStep :=
  { step_id := sid, name := nm, url := u, payload := pl, rollback_url := ru }

/-- A concrete four-step saga shaped like `create_event_management_saga`. -/
def sampleSaga : SagaTransaction :=
  { transaction_id := "tx-1", name := "Event Management Saga",
    steps :=
      [sampleStep ("s1") ("Event Registration") ("u1") []
         (some ("r1/\x7bevent_id\x7d")),
       sampleStep ("s2") ("Event Details Registration") ("u2") []
         (some ("r2/\x7bdetails_id\x7d")),
       sampleStep ("s3") ("Venue Registration") ("u3") []
         (some ("r3/\x7bvenue_id\x7d")),
       sampleStep ("s4") ("Ticket Registration") ("u4") []
         (some ("r4/\x7bticket_id\x7d"))] }

/-- An environment in which every forward call returns HTTP 200 with a
non-empty body and every compensation call returns 200. -/
def allOkEnv : SagaEnv :=
  { invoke := fun i => CallOutcome.response 200 [(("event_id"), ("E") ++ toString i)] (""),
    compensate := fun _ => RollbackOutcome.response 200,
    stepTime := fun i => ("T") ++ toString i,
    dbFreshId := ("uuid-db"), now := ("NOW") }

/-- An environment in which steps 0 and 1 succeed and step 2 answers
HTTP 500. -/
def failAt2Env : SagaEnv :=
  { allOkEnv with
    invoke := fun i =>
      if i < 2 then CallOutcome.response 201 [(("event_id"), ("E") ++ toString i)] ("")
      else CallOutcome.response 500 [] ("boom") }

/-- A variant of `failAt2Env` whose compensation call for step 0 fails with
HTTP 500 while step 1's compensation succeeds with 204. -/
def compFailEnv : SagaEnv :=
  { failAt2Env with
    compensate := fun j =>
      if j = 0 then RollbackOutcome.response 500 else RollbackOutcome.response 204 }

/-- An environment whose very first forward call raises an exception that is
not a `RequestException`. -/
def excEnv : SagaEnv :=
  { allOkEnv with invoke := fun _ => CallOutcome.otherExc ("boom") }

/-- A transaction as it stands at rollback time: steps 0 and 1 completed
with truthy results and rollback URLs, step 2 failed. -/
def rbSaga : SagaTransaction :=
  { transaction_id := "tx-rb", name := "rb",
    steps :=
      [{ sampleStep ("r1") ("A") ("u1") [] (some ("ra/\x7bevent_id\x7d")) with
           status := SagaStepStatus.completed,
           result := some [(("event_id"), ("E1"))] },
       { sampleStep ("r2") ("B") ("u2") [] (some ("rb/\x7bevent_id\x7d")) with
           status := SagaStepStatus.completed,
           result := some [(("event_id"), ("E2"))] },
       { sampleStep ("r3") ("C") ("u3") [] (some ("rc/\x7bevent_id\x7d")) with
           status := SagaStepStatus.failed,
           error := some ("HTTP 500: boom") }] }

/-- A completed prior step whose captured result carries a `ticket_id` and
an `event_id`. -/
def c4Prior : SagaStep :=
  { step_id := "p", name := "Prior", url := "u",
    status := SagaStepStatus.completed,
    result := some [(("ticket_id"), ("T-1")), (("event_id"), ("X"))] }

/-- A subsequent step whose own template sets `event_id` to `Y`. -/
def c4Step : SagaStep :=
  { step_id := "q", name := "Next", url := "u2",
    payload := [(("event_id"), ("Y"))] }

/-- A transaction in which `c4Prior` has completed and `c4Step` is about to
execute. -/
def c4Saga : SagaTransaction :=
  { transaction_id := "tx-c4", name := "c4", steps := [c4Prior, c4Step] }

/-! Association-list (Python dict) lemmas. -/

theorem assocGet_assocSet {α : Type} (d : List (String × α)) (k k' : String) (v : α) :
    assocGet (assocSet d k v) k' = if k = k' then some v else assocGet d k' := by
  induction d with
  | nil => simp [assocGet, assocSet]
  | cons kv rest ih =>
    obtain ⟨k0, v0⟩ := kv
    by_cases h0 : k0 = k
    · subst h0
      by_cases h1 : k0 = k'
      · subst h1; simp [assocGet, assocSet]
      · simp [assocGet, assocSet, h1, Ne.symm h1]
    · by_cases h1 : k0 = k'
      · subst h1
        simp [assocGet, assocSet, h0, Ne.symm h0]
      · simp [assocGet, assocSet, h0, h1, ih]

/-- Characterization of the per-result propagation step of
`_prepare_step_payload`: only the three wired keys are copied, and a copied
value overwrites whatever the payload held. -/
theorem assocGet_propagateIds (p r : Dict) (k : String) :
    assocGet (propagateIds p r) k =
      if k = ("event_id") ∨ k = ("venue_id") ∨ k = ("details_id") then
        (assocGet r k <|> assocGet p k)
      else assocGet p k := by
  unfold propagateIds
  rcases he : assocGet r ("event_id") with _ | ve <;>
    rcases hv : assocGet r ("venue_id") with _ | vv <;>
      rcases hd : assocGet r ("details_id") with _ | vd <;>
        by_cases h1 : k = ("event_id") <;>
          by_cases h2 : k = ("venue_id") <;>
            by_cases h3 : k = ("details_id") <;>
              simp_all [assocGet_assocSet] <;>
                simp_all [Ne.symm h1, Ne.symm h2, Ne.symm h3]

/-- The body of `_prepare_step_payload`'s loop is `payloadStepF`. -/
theorem prepare_step_payload_eq_foldl (step : SagaStep) (t : SagaTransaction) :
    prepare_step_payload step t = t.get_completed_steps.foldl payloadStepF step.payload :=
  rfl

/-- Threading an accumulator through the propagation fold: the last write
wins, and the initial accumulator only survives if nothing writes. -/
theorem foldl_propStepF_acc (k : String) (l : List SagaStep) (acc : Option String) :
    l.foldl (propStepF k) acc = (l.foldl (propStepF k) none <|> acc) := by
  induction l generalizing acc with
  | nil => simp
  | cons cs l ih =>
    simp only [List.foldl_cons]
    rw [ih (propStepF k acc cs), ih (propStepF k none cs)]
    rcases l.foldl (propStepF k) none with _ | w
    · simp only [Option.none_orElse]
      unfold propStepF
      split
      · rcases assocGet (cs.result.getD []) k with _ | v <;> simp
      · simp
    · simp

/-- Lookup after the whole payload fold of `_prepare_step_payload`: the three
wired keys take the last propagated value, if any; all other keys come from
the initial payload. -/
theorem assocGet_foldl_payload (k : String) (l : List SagaStep) (p : Dict) :
    assocGet (l.foldl payloadStepF p) k =
      if k = ("event_id") ∨ k = ("venue_id") ∨ k = ("details_id") then
        (l.foldl (propStepF k) none <|> assocGet p k)
      else assocGet p k := by
  induction l generalizing p with
  | nil => split <;> simp
  | cons cs l ih =>
    simp only [List.foldl_cons]
    rw [ih (payloadStepF p cs), foldl_propStepF_acc k l (propStepF k none cs)]
    split
    · have hpl : assocGet (payloadStepF p cs) k = ((propStepF k none cs) <|> assocGet p k) := by
        unfold payloadStepF propStepF
        split
        · rw [assocGet_propagateIds]
          rw [if_pos (by assumption)]
          rcases assocGet (cs.result.getD []) k with _ | v <;> simp
        · simp
      rw [hpl]
      rcases l.foldl (propStepF k) none with _ | w <;>
        rcases propStepF k none cs with _ | u <;> simp
    · have hpl : assocGet (payloadStepF p cs) k = assocGet p k := by
        unfold payloadStepF
        split
        · rw [assocGet_propagateIds, if_neg (by assumption)]
        · rfl
      rw [hpl]

/-- C4 (amended): for every step execution, a key of the outgoing payload
comes from the step's own template unless it is one of the three wired keys
`event_id`, `venue_id`, `details_id`; those take the value found in the last
truthy result among the transaction's completed steps (in completion order)
when one exists — overriding the step's own template — and the template
value otherwise.  Keys with an `_id` suffix other than these three are never
propagated. -/
theorem C4_identifier_propagation (step : SagaStep) (t : SagaTransaction) (k : String) :
    assocGet (prepare_step_payload step t) k =
      if k = ("event_id") ∨ k = ("venue_id") ∨ k = ("details_id") then
        (propagatedVal t k <|> assocGet step.payload k)
      else assocGet step.payload k := by
  rw [prepare_step_payload_eq_foldl]
  exact assocGet_foldl_payload k t.get_completed_steps step.payload

/-- C4 (counterexample): with a completed prior step whose result holds
`ticket_id = T-1` and `event_id = X`, and a next step whose own template
sets `event_id = Y`, the outgoing payload does not receive `ticket_id` at
all (refuting propagation of every `_id`-suffixed key), and its `event_id`
is the propagated `X`, not the template's `Y` (refuting template override). -/
theorem C4_counterexample :
    c4Prior.status = SagaStepStatus.completed ∧
    c4Prior.result = some [(("ticket_id"), ("T-1")), (("event_id"), ("X"))] ∧
    assocGet c4Step.payload ("event_id") = some ("Y") ∧
    assocGet (prepare_step_payload c4Step c4Saga) ("ticket_id") = none ∧
    assocGet (prepare_step_payload c4Step c4Saga) ("event_id") = some ("X") := by
  refine ⟨rfl, rfl, by decide, by decide, by decide⟩

/-- C9: a status query for a transaction identifier that is neither active
nor in the Registry returns HTTP 404 with a not-found body (and, the route
being a total function, never raises). -/
theorem C9_unknown_transaction_not_found (active : List (String × SagaTransaction))
    (dbs : SharedDatabase) (tid : String)
    (hactive : assocGet active tid = none)
    (hdb : get_transaction dbs tid = none) :
    get_saga_status active dbs tid =
      (404, [(("error"), RVal.str ("Transaction not found"))]) := by
  unfold get_saga_status get_transaction_status
  rw [hactive, hdb]

/-- Witness for C9 at a concrete unknown identifier. -/
theorem C9_witness :
    assocGet ([] : List (String × SagaTransaction)) ("nope") = none ∧
    get_transaction SharedDatabase.empty ("nope") = none ∧
    get_saga_status [] SharedDatabase.empty ("nope") =
      (404, [(("error"), RVal.str ("Transaction not found"))]) :=
  ⟨rfl, rfl, C9_unknown_transaction_not_found [] SharedDatabase.empty ("nope") rfl rfl⟩

/-- C10: updating a transaction identifier absent from the Registry's store
returns `false` and leaves the store unchanged, and `get_transaction` on
that identifier returns absent (both operations are pure functions of the
store, so neither mutates anything else). -/
theorem C10_update_missing_id (dbs : SharedDatabase) (tid : String)
    (updates : TxRec) (now : String)
    (h : get_transaction dbs tid = none) :
    update_transaction dbs tid updates now = (dbs, false) ∧
      get_transaction dbs tid = none := by
  have h' : assocGet dbs.transactions tid = none := h
  exact ⟨by unfold update_transaction; rw [h'], h⟩

/-- Witness for C10 on the empty store. -/
theorem C10_witness :
    get_transaction SharedDatabase.empty ("ghost") = none ∧
    update_transaction SharedDatabase.empty ("ghost")
        [(("status"), RVal.str ("completed"))] ("NOW") = (SharedDatabase.empty, false) :=
  ⟨rfl, (C10_update_missing_id SharedDatabase.empty ("ghost")
      [(("status"), RVal.str ("completed"))] ("NOW") rfl).1⟩

/-! Equations for `_execute_step`, one per outcome class. -/

theorem execute_step_success (s : SagaStep) (t : SagaTransaction) (o : CallOutcome)
    (now : String) (h : o.isSuccess = true) :
    execute_step s t o now =
      StepExecResult.done (markCompleted s o.body now) true
        (prepare_step_payload { s with status := SagaStepStatus.in_progress } t) := by
  cases o with
  | response code body text =>
    have hc : code = 200 ∨ code = 201 := by
      rcases Bool.or_eq_true_iff.mp h with h' | h'
      · exact Or.inl (by simpa using h')
      · exact Or.inr (by simpa using h')
    simp only [execute_step, CallOutcome.body, markCompleted, if_pos hc]
  | requestExc msg => simp [CallOutcome.isSuccess] at h
  | otherExc msg => simp [CallOutcome.isSuccess] at h

theorem execute_step_failure (s : SagaStep) (t : SagaTransaction) (o : CallOutcome)
    (now : String) (h : o.isFail = true) :
    ∃ err, execute_step s t o now =
      StepExecResult.done (markFailed s err now) false
        (prepare_step_payload { s with status := SagaStepStatus.in_progress } t) := by
  cases o with
  | response code body text =>
    have hc : ¬(code = 200 ∨ code = 201) := by
      intro hor
      rcases hor with h' | h' <;> subst h' <;> simp [CallOutcome.isFail] at h
    refine ⟨("HTTP " ++ toString code ++ ": " ++ text), ?_⟩
    simp only [execute_step, markFailed, if_neg hc]
  | requestExc msg =>
    refine ⟨("Request failed: " ++ msg), ?_⟩
    simp only [execute_step, markFailed]
  | otherExc msg => simp [CallOutcome.isFail] at h

theorem execute_step_exc (s : SagaStep) (t : SagaTransaction) (msg : String)
    (now : String) :
    execute_step s t (CallOutcome.otherExc msg) now =
      StepExecResult.exc { s with status := SagaStepStatus.in_progress } msg
        (prepare_step_payload { s with status := SagaStepStatus.in_progress } t) := by
  simp only [execute_step]

theorem stepOutcome_of_success (env : SagaEnv) (i : Nat) (s : SagaStep)
    (h : (env.invoke i).isSuccess = true) :
    stepOutcome env i s = markCompleted s ((env.invoke i).body) (env.stepTime i) := by
  cases ho : env.invoke i with
  | response code body text =>
    rw [ho] at h
    have hc : code = 200 ∨ code = 201 := by
      rcases Bool.or_eq_true_iff.mp h with h' | h'
      · exact Or.inl (by simpa using h')
      · exact Or.inr (by simpa using h')
    simp only [stepOutcome, ho, CallOutcome.body]
    rw [if_pos hc]
  | requestExc msg => rw [ho] at h; simp [CallOutcome.isSuccess] at h
  | otherExc msg => rw [ho] at h; simp [CallOutcome.isSuccess] at h

theorem stepOutcome_status_of_success (env : SagaEnv) (i : Nat) (s : SagaStep)
    (h : (env.invoke i).isSuccess = true) :
    (stepOutcome env i s).status = SagaStepStatus.completed := by
  rw [stepOutcome_of_success env i s h]; rfl

theorem stepOutcome_of_fail (env : SagaEnv) (i : Nat) (s : SagaStep)
    (h : (env.invoke i).isFail = true) :
    ∃ err, stepOutcome env i s = markFailed s err (env.stepTime i) := by
  cases ho : env.invoke i with
  | response code body text =>
    rw [ho] at h
    have hc : ¬(code = 200 ∨ code = 201) := by
      intro hor
      rcases hor with h' | h' <;> subst h' <;> simp [CallOutcome.isFail] at h
    refine ⟨("HTTP " ++ toString code ++ ": " ++ text), ?_⟩
    simp only [stepOutcome, ho]
    rw [if_neg hc]
  | requestExc msg =>
    refine ⟨("Request failed: " ++ msg), ?_⟩
    simp only [stepOutcome, ho]
  | otherExc msg => rw [ho] at h; simp [CallOutcome.isFail] at h

/-- Helper: default of `getLast?` over a cons. -/
theorem getLastD_cons (i x : Nat) (rest : List Nat) :
    ((i :: rest).getLast?).getD x = (rest.getLast?).getD i := by
  cases rest with
  | nil => rfl
  | cons a l =>
    obtain ⟨y, hy⟩ := Option.isSome_iff_exists.mp
      ((List.getLast?_isSome).mpr (List.cons_ne_nil a l))
    rw [List.getLast?_cons_cons, hy]
    rfl

/-- Characterization of the saga loop when every step in `idxs` succeeds:
the loop returns `allDone`, issues exactly one forward call per index in
order, rewrites exactly the steps at those indices through `stepOutcome`,
and leaves the current-step index at the last processed index. -/
theorem sagaLoop_all_success (env : SagaEnv) :
    ∀ (idxs : List Nat) (t : SagaTransaction),
    (∀ j ∈ idxs, j < t.steps.length) →
    (∀ j ∈ idxs, (env.invoke j).isSuccess = true) →
    idxs.Nodup →
    ∃ t' calls, sagaLoop env t idxs = LoopResult.allDone t' calls ∧
      calls.map Prod.fst = idxs ∧
      t'.transaction_id = t.transaction_id ∧
      t'.name = t.name ∧
      t'.status = t.status ∧
      t'.metadata = t.metadata ∧
      t'.steps.length = t.steps.length ∧
      t'.current_step_index = (idxs.getLast?).getD t.current_step_index ∧
      (∀ j : Nat, t'.steps[j]? =
        if j ∈ idxs then (t.steps[j]?).map (stepOutcome env j) else t.steps[j]?) := by
  intro idxs
  induction idxs with
  | nil =>
    intro t _ _ _
    exact ⟨t, [], rfl, rfl, rfl, rfl, rfl, rfl, rfl, rfl, fun j => by simp⟩
  | cons i rest ih =>
    intro t hb hok hnd
    have hi : i < t.steps.length := hb i (List.mem_cons_self i rest)
    have hs : t.steps[i]? = some (t.steps[i]) := List.getElem?_eq_getElem hi
    have hinv := hok i (List.mem_cons_self i rest)
    have hexec := execute_step_success (t.steps[i])
      { t with current_step_index := i,
               steps := t.steps.set i { t.steps[i] with status := SagaStepStatus.in_progress } }
      (env.invoke i) (env.stepTime i) hinv
    have houtc := stepOutcome_of_success env i (t.steps[i]) hinv
    obtain ⟨t', calls, heq, hmap, hid, hnm, hst, hmd, hlen, hidx, hpt⟩ :=
      ih { t with current_step_index := i,
                  steps := t.steps.set i (markCompleted (t.steps[i]) ((env.invoke i).body) (env.stepTime i)) }
        (by intro j hj; simpa [List.length_set] using hb j (List.mem_cons_of_mem i hj))
        (fun j hj => hok j (List.mem_cons_of_mem i hj))
        (List.Nodup.of_cons hnd)
    have hni : i ∉ rest := (List.nodup_cons.mp hnd).1
    refine ⟨t', (i, prepare_step_payload
        { t.steps[i] with status := SagaStepStatus.in_progress }
        { t with current_step_index := i,
                 steps := t.steps.set i { t.steps[i] with status := SagaStepStatus.in_progress } }) :: calls,
      ?_, ?_, ?_, ?_, ?_, ?_, ?_, ?_, ?_⟩
    · simp only [sagaLoop, hs, hexec, List.set_set]
      rw [heq]
      rfl
    · simp [hmap]
    · exact hid
    · exact hnm
    · exact hst
    · exact hmd
    · simpa [List.length_set] using hlen
    · rw [hidx, getLastD_cons]
    · intro j
      rw [hpt j]
      by_cases hij : j = i
      · subst hij
        rw [if_neg hni, List.getElem?_set_self hi,
          if_pos (List.mem_cons_self j rest), hs]
        simp [houtc]
      · rw [List.getElem?_set_ne (fun h => hij h.symm)]
        by_cases hjr : j ∈ rest
        · rw [if_pos hjr, if_pos (List.mem_cons_of_mem i hjr)]
        · rw [if_neg hjr, if_neg (by simp [hij, hjr])]

theorem execute_step_fail_eq (env : SagaEnv) (i : Nat) (s : SagaStep)
    (t : SagaTransaction) (h : (env.invoke i).isFail = true) :
    execute_step s t (env.invoke i) (env.stepTime i) =
      StepExecResult.done (stepOutcome env i s) false
        (prepare_step_payload { s with status := SagaStepStatus.in_progress } t) := by
  cases ho : env.invoke i with
  | response code body text =>
    rw [ho] at h
    have hc : ¬(code = 200 ∨ code = 201) := by
      intro hor
      rcases hor with h' | h' <;> subst h' <;> simp [CallOutcome.isFail] at h
    simp only [execute_step, stepOutcome, ho, markFailed]
    simp only [if_neg hc]
  | requestExc msg =>
    simp only [execute_step, stepOutcome, ho, markFailed]
  | otherExc msg => rw [ho] at h; simp [CallOutcome.isFail] at h

/-- Characterization of the saga loop when the indices split as
`pre ++ i :: post` with every step of `pre` succeeding and step `i`'s
invocation failing (non-2xx response or `RequestException`): the loop stops
at `i` with `failedAt`, having invoked exactly `pre ++ [i]`, rewritten
exactly those steps through `stepOutcome`, and never touched the indices of
`post`. -/
theorem sagaLoop_first_fail (env : SagaEnv) :
    ∀ (pre : List Nat) (t : SagaTransaction) (i : Nat) (post : List Nat)
    (_hb : ∀ j ∈ pre, j < t.steps.length) (hi : i < t.steps.length)
    (_hok : ∀ j ∈ pre, (env.invoke j).isSuccess = true)
    (_hfail : (env.invoke i).isFail = true)
    (_hn : (pre ++ [i]).Nodup),
    ∃ t' calls, sagaLoop env t (pre ++ i :: post) =
        LoopResult.failedAt t' i ((t.steps[i]).name) calls ∧
      calls.map Prod.fst = pre ++ [i] ∧
      t'.transaction_id = t.transaction_id ∧
      t'.name = t.name ∧
      t'.status = t.status ∧
      t'.metadata = t.metadata ∧
      t'.steps.length = t.steps.length ∧
      t'.current_step_index = i ∧
      (∀ j : Nat, t'.steps[j]? =
        if j ∈ pre ++ [i] then (t.steps[j]?).map (stepOutcome env j) else t.steps[j]?) := by
  intro pre
  induction pre with
  | nil =>
    intro t i post _hb hi _hok hfail _hn
    have hs : t.steps[i]? = some (t.steps[i]) := List.getElem?_eq_getElem hi
    have hexec := execute_step_fail_eq env i (t.steps[i])
      { t with current_step_index := i,
               steps := t.steps.set i { t.steps[i] with status := SagaStepStatus.in_progress } }
      hfail
    refine ⟨{ t with current_step_index := i,
                     steps := t.steps.set i (stepOutcome env i (t.steps[i])) },
      [(i, prepare_step_payload
        { t.steps[i] with status := SagaStepStatus.in_progress }
        { t with current_step_index := i,
                 steps := t.steps.set i { t.steps[i] with status := SagaStepStatus.in_progress } })],
      ?_, rfl, rfl, rfl, rfl, rfl, by simp [List.length_set], rfl, ?_⟩
    · simp only [List.nil_append, sagaLoop, hs, hexec, List.set_set]
      rfl
    · intro j
      by_cases hij : j = i
      · subst hij
        rw [List.getElem?_set_self hi, if_pos (by simp), hs]
        rfl
      · rw [List.getElem?_set_ne (fun h => hij h.symm), if_neg (by simp [hij])]
  | cons a pre ih =>
    intro t i post hb hi hok hfail hn
    have ha : a < t.steps.length := hb a (List.mem_cons_self a pre)
    have hsa : t.steps[a]? = some (t.steps[a]) := List.getElem?_eq_getElem ha
    have hinva := hok a (List.mem_cons_self a pre)
    have hexec := execute_step_success (t.steps[a])
      { t with current_step_index := a,
               steps := t.steps.set a { t.steps[a] with status := SagaStepStatus.in_progress } }
      (env.invoke a) (env.stepTime a) hinva
    have houtc := stepOutcome_of_success env a (t.steps[a]) hinva
    have hani : a ∉ pre ++ [i] := (List.nodup_cons.mp hn).1
    have hai : a ≠ i := fun h => hani (by simp [h])
    have hlen2 : (t.steps.set a (markCompleted (t.steps[a]) ((env.invoke a).body) (env.stepTime a))).length
        = t.steps.length := List.length_set ..
    obtain ⟨t', calls, heq, hmap, hid, hnm, hst, hmd, hlen, hidx, hpt⟩ :=
      ih { t with current_step_index := a,
                  steps := t.steps.set a (markCompleted (t.steps[a]) ((env.invoke a).body) (env.stepTime a)) }
        i post
        (by intro j hj
            simpa [List.length_set] using hb j (List.mem_cons_of_mem a hj))
        (by simpa [List.length_set] using hi)
        (fun j hj => hok j (List.mem_cons_of_mem a hj))
        hfail
        ((List.nodup_cons.mp hn).2)
    have hsi : t.steps[i]? = some (t.steps[i]) := List.getElem?_eq_getElem hi
    have hi2 : i < (t.steps.set a (markCompleted (t.steps[a]) ((env.invoke a).body) (env.stepTime a))).length := by
      simpa [List.length_set] using hi
    have hname : ({ t with current_step_index := a, steps := t.steps.set a (markCompleted (t.steps[a]) ((env.invoke a).body) (env.stepTime a)) } : SagaTransaction).steps[i] = t.steps[i] := by
      have h1 : (t.steps.set a (markCompleted (t.steps[a]) ((env.invoke a).body) (env.stepTime a)))[i]?
          = t.steps[i]? := List.getElem?_set_ne hai
      have h2 := List.getElem?_eq_getElem
        (show i < (t.steps.set a (markCompleted (t.steps[a]) ((env.invoke a).body) (env.stepTime a))).length by
          simpa [List.length_set] using hi)
      rw [h1, hsi] at h2
      exact (Option.some.inj h2).symm
    refine ⟨t', (a, prepare_step_payload
        { t.steps[a] with status := SagaStepStatus.in_progress }
        { t with current_step_index := a,
                 steps := t.steps.set a { t.steps[a] with status := SagaStepStatus.in_progress } }) :: calls,
      ?_, ?_, hid, hnm, hst, hmd, hlen.trans hlen2, hidx, ?_⟩
    · simp only [List.cons_append, sagaLoop, hsa, hexec, List.set_set]
      rw [show pre.append (i :: post) = pre ++ i :: post from rfl, heq, hname]
      rfl
    · simp [hmap]
    · intro j
      rw [hpt j]
      by_cases hja : j = a
      · subst hja
        rw [if_neg hani, List.getElem?_set_self ha, if_pos (by simp), hsa]
        simp [houtc]
      · rw [List.getElem?_set_ne (fun h => hja h.symm)]
        by_cases hjm : j ∈ pre ++ [i]
        · rw [if_pos hjm,
            if_pos (by rw [List.cons_append]; exact List.mem_cons_of_mem a hjm)]
        · rw [if_neg hjm,
            if_neg (by rw [List.cons_append]
                       intro hmem
                       rcases List.mem_cons.mp hmem with h | h
                       · exact hja h
                       · exact hjm h)]

/-- Characterization of the saga loop when the indices split as
`pre ++ i :: post` with every step of `pre` succeeding and step `i`'s
invocation raising an exception that is not a `RequestException`: the loop
surfaces `excAt` with step `i` left marked `in_progress` and the indices of
`post` never touched. -/
theorem sagaLoop_first_exc (env : SagaEnv) :
    ∀ (pre : List Nat) (t : SagaTransaction) (i : Nat) (post : List Nat) (msg : String)
    (_hb : ∀ j ∈ pre, j < t.steps.length) (hi : i < t.steps.length)
    (_hok : ∀ j ∈ pre, (env.invoke j).isSuccess = true)
    (_hexc : env.invoke i = CallOutcome.otherExc msg)
    (_hn : (pre ++ [i]).Nodup),
    ∃ t' calls, sagaLoop env t (pre ++ i :: post) = LoopResult.excAt t' msg calls ∧
      calls.map Prod.fst = pre ++ [i] ∧
      t'.transaction_id = t.transaction_id ∧
      t'.name = t.name ∧
      t'.status = t.status ∧
      t'.metadata = t.metadata ∧
      t'.steps.length = t.steps.length ∧
      t'.current_step_index = i ∧
      (∀ j : Nat, t'.steps[j]? =
        if j ∈ pre ++ [i] then (t.steps[j]?).map (stepOutcome env j) else t.steps[j]?) := by
  intro pre
  induction pre with
  | nil =>
    intro t i post msg _hb hi _hok hexc _hn
    have hs : t.steps[i]? = some (t.steps[i]) := List.getElem?_eq_getElem hi
    have hexecEq := execute_step_exc (t.steps[i])
      { t with current_step_index := i,
               steps := t.steps.set i { t.steps[i] with status := SagaStepStatus.in_progress } }
      msg (env.stepTime i)
    refine ⟨{ t with current_step_index := i,
                     steps := t.steps.set i { t.steps[i] with status := SagaStepStatus.in_progress } },
      [(i, prepare_step_payload
        { t.steps[i] with status := SagaStepStatus.in_progress }
        { t with current_step_index := i,
                 steps := t.steps.set i { t.steps[i] with status := SagaStepStatus.in_progress } })],
      ?_, rfl, rfl, rfl, rfl, rfl, by simp [List.length_set], rfl, ?_⟩
    · simp only [List.nil_append, sagaLoop, hs, hexc, hexecEq, List.set_set]
    · intro j
      by_cases hij : j = i
      · subst hij
        rw [List.getElem?_set_self hi, if_pos (by simp), hs]
        simp [stepOutcome, hexc]
      · rw [List.getElem?_set_ne (fun h => hij h.symm), if_neg (by simp [hij])]
  | cons a pre ih =>
    intro t i post msg hb hi hok hexc hn
    have ha : a < t.steps.length := hb a (List.mem_cons_self a pre)
    have hsa : t.steps[a]? = some (t.steps[a]) := List.getElem?_eq_getElem ha
    have hinva := hok a (List.mem_cons_self a pre)
    have hexeca := execute_step_success (t.steps[a])
      { t with current_step_index := a,
               steps := t.steps.set a { t.steps[a] with status := SagaStepStatus.in_progress } }
      (env.invoke a) (env.stepTime a) hinva
    have houtc := stepOutcome_of_success env a (t.steps[a]) hinva
    have hani : a ∉ pre ++ [i] := (List.nodup_cons.mp hn).1
    have hai : a ≠ i := fun h => hani (by simp [h])
    have hlen2 : (t.steps.set a (markCompleted (t.steps[a]) ((env.invoke a).body) (env.stepTime a))).length
        = t.steps.length := List.length_set ..
    obtain ⟨t', calls, heq, hmap, hid, hnm, hst, hmd, hlen, hidx, hpt⟩ :=
      ih { t with current_step_index := a,
                  steps := t.steps.set a (markCompleted (t.steps[a]) ((env.invoke a).body) (env.stepTime a)) }
        i post msg
        (by intro j hj
            simpa [List.length_set] using hb j (List.mem_cons_of_mem a hj))
        (by simpa [List.length_set] using hi)
        (fun j hj => hok j (List.mem_cons_of_mem a hj))
        hexc
        ((List.nodup_cons.mp hn).2)
    refine ⟨t', (a, prepare_step_payload
        { t.steps[a] with status := SagaStepStatus.in_progress }
        { t with current_step_index := a,
                 steps := t.steps.set a { t.steps[a] with status := SagaStepStatus.in_progress } }) :: calls,
      ?_, ?_, hid, hnm, hst, hmd, hlen.trans hlen2, hidx, ?_⟩
    · simp only [List.cons_append, sagaLoop, hsa, hexeca, List.set_set]
      rw [show pre.append (i :: post) = pre ++ i :: post from rfl, heq]
      rfl
    · simp [hmap]
    · intro j
      rw [hpt j]
      by_cases hja : j = a
      · subst hja
        rw [if_neg hani, List.getElem?_set_self ha, if_pos (by simp), hsa]
        simp [houtc]
      · rw [List.getElem?_set_ne (fun h => hja h.symm)]
        by_cases hjm : j ∈ pre ++ [i]
        · rw [if_pos hjm,
            if_pos (by rw [List.cons_append]; exact List.mem_cons_of_mem a hjm)]
        · rw [if_neg hjm,
            if_neg (by rw [List.cons_append]
                       intro hmem
                       rcases List.mem_cons.mp hmem with h | h
                       · exact hja h
                       · exact hjm h)]

theorem compStep_of_guard_false (comp : Nat → RollbackOutcome) (i : Nat) (s : SagaStep)
    (h : (truthyStr s.rollback_url && truthyDict s.result) = false) :
    compStep comp i s = s := by
  unfold compStep
  rw [if_neg (by rw [h]; exact Bool.false_ne_true)]

theorem execute_rollback_step_fst (s : SagaStep) (comp : Nat → RollbackOutcome) (i : Nat)
    (h : (truthyStr s.rollback_url && truthyDict s.result) = true) :
    (execute_rollback_step s (comp i)).1 = compStep comp i s := by
  cases hc : comp i with
  | response code =>
    by_cases h2 : code = 200 ∨ code = 204
    · simp [execute_rollback_step, compStep, h, hc, if_pos h2]
    · simp [execute_rollback_step, compStep, h, hc, if_neg h2]
  | requestExc msg => simp [execute_rollback_step, compStep, h, hc]

/-- Characterization of the reverse sweep over an arbitrary list of distinct
in-range indices: exactly the compensable steps among them get one
compensation call each, in list order, and each visited step is rewritten
through `compStep` while every other step is untouched. -/
theorem sweepPred_set_ne (steps : List SagaStep) (i m : Nat) (x : SagaStep)
    (h : i ≠ m) : sweepPred (steps.set i x) m = sweepPred steps m := by
  unfold sweepPred
  rw [List.getElem?_set_ne h]

theorem rollbackSweep_spec (comp : Nat → RollbackOutcome) :
    ∀ (idxs : List Nat) (steps : List SagaStep),
    (∀ i ∈ idxs, i < steps.length) → idxs.Nodup →
    (rollbackSweep steps comp idxs).1.length = steps.length ∧
    ((rollbackSweep steps comp idxs).2.map Prod.fst = idxs.filter (sweepPred steps)) ∧
    (∀ j : Nat, (rollbackSweep steps comp idxs).1[j]? =
      if j ∈ idxs then (steps[j]?).map (compStep comp j) else steps[j]?) := by
  intro idxs
  induction idxs with
  | nil =>
    intro steps _ _
    exact ⟨rfl, rfl, fun j => by simp [rollbackSweep]⟩
  | cons i rest ih =>
    intro steps hb hnd
    have hi : i < steps.length := hb i (List.mem_cons_self i rest)
    have hs : steps[i]? = some (steps[i]) := List.getElem?_eq_getElem hi
    have hni : i ∉ rest := (List.nodup_cons.mp hnd).1
    by_cases hg : (truthyStr (steps[i]).rollback_url && truthyDict (steps[i]).result) = true
    · obtain ⟨ihlen, ihmap, ihpt⟩ :=
        ih (steps.set i ((execute_rollback_step (steps[i]) (comp i)).1))
          (by intro m hm
              simpa [List.length_set] using hb m (List.mem_cons_of_mem i hm))
          ((List.nodup_cons.mp hnd).2)
      have hred : rollbackSweep steps comp (i :: rest) =
          ((rollbackSweep (steps.set i ((execute_rollback_step (steps[i]) (comp i)).1)) comp rest).1,
           (i, (execute_rollback_step (steps[i]) (comp i)).2) ::
             (rollbackSweep (steps.set i ((execute_rollback_step (steps[i]) (comp i)).1)) comp rest).2) := by
        simp only [rollbackSweep, hs, if_pos hg]
      refine ⟨?_, ?_, ?_⟩
      · rw [hred]
        simpa [List.length_set] using ihlen
      · rw [hred]
        have hfilter : rest.filter (sweepPred (steps.set i ((execute_rollback_step (steps[i]) (comp i)).1)))
            = rest.filter (sweepPred steps) := by
          apply List.filter_congr
          intro m hm
          exact sweepPred_set_ne steps i m _ (fun h => hni (by rw [h]; exact hm))
        have hpi : sweepPred steps i = true := by
          simp only [sweepPred, hs]
          exact hg
        simp only [List.map_cons, ihmap, hfilter]
        rw [List.filter_cons_of_pos hpi]
      · intro j
        rw [hred]
        by_cases hij : j = i
        · subst hij
          rw [ihpt j, if_neg hni,
            List.getElem?_set_self hi, if_pos (List.mem_cons_self j rest), hs,
            Option.map_some']
          rw [execute_rollback_step_fst (steps[j]) comp j hg]
        · rw [ihpt j, List.getElem?_set_ne (fun h => hij h.symm)]
          by_cases hjm : j ∈ rest
          · rw [if_pos hjm, if_pos (List.mem_cons_of_mem i hjm)]
          · rw [if_neg hjm, if_neg (by simp [hij, hjm])]
    · obtain ⟨ihlen, ihmap, ihpt⟩ := ih steps
        (fun m hm => hb m (List.mem_cons_of_mem i hm))
        ((List.nodup_cons.mp hnd).2)
      have hred : rollbackSweep steps comp (i :: rest) = rollbackSweep steps comp rest := by
        simp only [rollbackSweep, hs, if_neg hg]
      have hgf : (truthyStr (steps[i]).rollback_url && truthyDict (steps[i]).result) = false :=
        Bool.eq_false_iff.mpr hg
      have hpi : sweepPred steps i = false := by
        simp only [sweepPred, hs]
        exact hgf
      refine ⟨hred ▸ ihlen, ?_, ?_⟩
      · rw [hred, ihmap]
        rw [List.filter_cons_of_neg (by rw [hpi]; exact Bool.false_ne_true)]
      · intro j
        rw [hred, ihpt j]
        by_cases hij : j = i
        · subst hij
          rw [if_neg hni, if_pos (List.mem_cons_self j rest), hs, Option.map_some',
            compStep_of_guard_false comp j (steps[j]) hgf]
        · by_cases hjm : j ∈ rest
          · rw [if_pos hjm, if_pos (List.mem_cons_of_mem i hjm)]
          · rw [if_neg hjm, if_neg (by simp [hij, hjm])]

/-- Membership in `completedIdxs`. -/
theorem mem_completedIdxs (steps : List SagaStep) (j : Nat) :
    j ∈ completedIdxs steps ↔
      ∃ s, steps[j]? = some s ∧ s.status = SagaStepStatus.completed := by
  unfold completedIdxs
  rw [List.mem_filter, List.mem_range]
  constructor
  · rintro ⟨hlt, hp⟩
    have hs : steps[j]? = some (steps[j]) := List.getElem?_eq_getElem hlt
    refine ⟨steps[j], hs, ?_⟩
    simpa [completedPred, hs] using hp
  · rintro ⟨s, hs, hst⟩
    have hlt : j < steps.length := by
      by_contra hge
      rw [List.getElem?_eq_none (by omega)] at hs
      cases hs
    exact ⟨hlt, by simp [completedPred, hs, hst]⟩

theorem completedIdxs_nodup (steps : List SagaStep) : (completedIdxs steps).Nodup :=
  (List.nodup_range steps.length).filter _

theorem completedIdxs_lt (steps : List SagaStep) (j : Nat) (h : j ∈ completedIdxs steps) :
    j < steps.length := by
  unfold completedIdxs at h
  exact List.mem_range.mp (List.mem_filter.mp h).1

/-- Characterization of `_execute_rollback`: the compensation calls are the
compensable completed steps in reverse completion order, each completed step
is rewritten through `compStep`, and the rest of the transaction is
untouched. -/
theorem execute_rollback_spec (t : SagaTransaction) (comp : Nat → RollbackOutcome) :
    (execute_rollback t comp).1.transaction_id = t.transaction_id ∧
    (execute_rollback t comp).1.status = t.status ∧
    (execute_rollback t comp).1.current_step_index = t.current_step_index ∧
    (execute_rollback t comp).1.steps.length = t.steps.length ∧
    ((execute_rollback t comp).2.map Prod.fst =
      ((completedIdxs t.steps).filter (sweepPred t.steps)).reverse) ∧
    (∀ j : Nat, (execute_rollback t comp).1.steps[j]? =
      if j ∈ completedIdxs t.steps then (t.steps[j]?).map (compStep comp j) else t.steps[j]?) := by
  obtain ⟨hlen, hmap, hpt⟩ := rollbackSweep_spec comp (completedIdxs t.steps).reverse t.steps
    (fun i hi => completedIdxs_lt t.steps i (List.mem_reverse.mp hi))
    (List.nodup_reverse.mpr (completedIdxs_nodup t.steps))
  refine ⟨rfl, rfl, rfl, hlen, ?_, ?_⟩
  · show (rollbackSweep t.steps comp (completedIdxs t.steps).reverse).2.map Prod.fst = _
    rw [hmap, List.filter_reverse]
  · intro j
    show (rollbackSweep t.steps comp (completedIdxs t.steps).reverse).1[j]? = _
    rw [hpt j]
    by_cases hj : j ∈ completedIdxs t.steps
    · rw [if_pos (List.mem_reverse.mpr hj), if_pos hj]
    · rw [if_neg (fun h => hj (List.mem_reverse.mp h)), if_neg hj]

/-! Helpers on index ranges. -/

theorem getLast?_range (n : Nat) (h : 0 < n) :
    (List.range n).getLast? = some (n - 1) := by
  obtain ⟨m, rfl⟩ : ∃ m, n = m + 1 := ⟨n - 1, by omega⟩
  rw [List.range_succ, List.getLast?_concat]
  simp

theorem range_split (i n : Nat) (h : i < n) :
    List.range n = List.range i ++ i :: List.range' (i + 1) (n - i - 1) := by
  have h1 := List.range'_append 0 i (n - i) 1
  have h2 : n - i + i = n := by omega
  have h3 : 0 + 1 * i = i := by omega
  rw [h2, h3] at h1
  have h4 : n - i = (n - i - 1) + 1 := by omega
  rw [List.range_eq_range', ← h1, h4, List.range'_succ, List.range_eq_range']
  simp

theorem range_concat_nodup (i : Nat) : (List.range i ++ [i]).Nodup := by
  rw [← List.range_succ]
  exact List.nodup_range (i + 1)

/-- C1 (amended): for every saga in which every step's invocation returns a
success response, `execute_saga` terminates with transaction status
`completed`, every step's status `completed`, and a summary with success
`true`, status `"completed"` and `completed_steps` equal to the step count —
but the final current-step index is the index of the last step, i.e. the
number of steps minus one (the loop assigns `i`, never `i + 1`). -/
theorem C1_all_success (active0 : List (String × SagaTransaction)) (db0 : SharedDatabase)
    (env : SagaEnv) (t : SagaTransaction)
    (hok : ∀ j, j < t.steps.length → (env.invoke j).isSuccess = true) :
    (execute_saga active0 db0 env t).transaction.status = SagaTransactionStatus.completed ∧
    (0 < t.steps.length →
      (execute_saga active0 db0 env t).transaction.current_step_index = t.steps.length - 1) ∧
    (∀ s ∈ (execute_saga active0 db0 env t).transaction.steps,
      s.status = SagaStepStatus.completed) ∧
    (execute_saga active0 db0 env t).summary.success = true ∧
    (execute_saga active0 db0 env t).summary.status = "completed" ∧
    (execute_saga active0 db0 env t).summary.completed_steps = some t.steps.length := by
  obtain ⟨t', calls, heq, hmap, hid, hnm, hst, hmd, hlen, hidx, hpt⟩ :=
    sagaLoop_all_success env (List.range t.steps.length)
      { t with status := SagaTransactionStatus.in_progress, updated_at := env.now }
      (fun j hj => List.mem_range.mp hj)
      (fun j hj => hok j (List.mem_range.mp hj))
      (List.nodup_range _)
  have hlen' : t'.steps.length = t.steps.length := hlen
  have hidx' : t'.current_step_index = ((List.range t.steps.length).getLast?).getD t.current_step_index := hidx
  have hpt' : ∀ j : Nat, t'.steps[j]? =
      if j ∈ List.range t.steps.length then (t.steps[j]?).map (stepOutcome env j)
      else t.steps[j]? := hpt
  have hrun : execute_saga active0 db0 env t =
      { transaction := { t' with status := SagaTransactionStatus.completed, updated_at := env.now },
        db := (update_transaction
          (create_transaction db0
            [("id", RVal.str t.transaction_id),
             ("status", RVal.str t.status.value),
             ("steps", RVal.strList (t.steps.map SagaStep.name)),
             ("metadata", RVal.dict t.metadata)] env.dbFreshId env.now).1
          t'.transaction_id
          [("status", RVal.str SagaTransactionStatus.completed.value),
           ("steps", RVal.stepList (t'.steps.map SagaStep.to_dict))] env.now).1,
        active := assocSet (assocSet active0 t.transaction_id t) t'.transaction_id
          { t' with status := SagaTransactionStatus.completed, updated_at := env.now },
        summary := { success := true, transaction_id := t'.transaction_id,
                     status := SagaTransactionStatus.completed.value,
                     message := "All steps completed successfully",
                     completed_steps := some t'.steps.length },
        forwardCalls := calls, compCalls := [] } := by
    simp only [execute_saga]
    rw [heq]
  refine ⟨by rw [hrun], ?_, ?_, by rw [hrun], by rw [hrun]; rfl, ?_⟩
  · intro hpos
    rw [hrun]
    show t'.current_step_index = t.steps.length - 1
    rw [hidx', getLast?_range t.steps.length hpos]
    rfl
  · intro s hs
    rw [hrun] at hs
    obtain ⟨j, hj⟩ := List.mem_iff_getElem?.mp hs
    have hj' : t'.steps[j]? = some s := hj
    rw [hpt' j] at hj'
    by_cases hjr : j ∈ List.range t.steps.length
    · rw [if_pos hjr] at hj'
      have hjlt : j < t.steps.length := List.mem_range.mp hjr
      rw [List.getElem?_eq_getElem hjlt, Option.map_some'] at hj'
      have hs' : s = stepOutcome env j (t.steps[j]) := (Option.some.inj hj').symm
      rw [hs']
      exact stepOutcome_status_of_success env j (t.steps[j]) (hok j hjlt)
    · rw [if_neg hjr] at hj'
      have hjge : t.steps.length ≤ j := by
        by_contra hlt
        exact hjr (List.mem_range.mpr (by omega))
      rw [List.getElem?_eq_none hjge] at hj'
      cases hj'
  · rw [hrun]
    show some t'.steps.length = some t.steps.length
    rw [hlen']

/-- C1 (counterexample): a concrete four-step saga in which every invocation
succeeds ends with `current_step_index = 3`, not the step count `4` claimed
by the spec. -/
theorem C1_counterexample :
    (∀ j, (allOkEnv.invoke j).isSuccess = true) ∧
    sampleSaga.steps.length = 4 ∧
    (execute_saga [] SharedDatabase.empty allOkEnv sampleSaga).transaction.current_step_index = 3 ∧
    (execute_saga [] SharedDatabase.empty allOkEnv sampleSaga).transaction.current_step_index ≠
      sampleSaga.steps.length := by
  exact ⟨fun j => rfl, rfl, by decide, by decide⟩

/-- Witness for C1 on the concrete four-step saga with an all-success
environment. -/
theorem C1_witness :
    0 < sampleSaga.steps.length ∧
    (execute_saga [] SharedDatabase.empty allOkEnv sampleSaga).transaction.status
      = SagaTransactionStatus.completed ∧
    (execute_saga [] SharedDatabase.empty allOkEnv sampleSaga).transaction.current_step_index
      = sampleSaga.steps.length - 1 ∧
    (execute_saga [] SharedDatabase.empty allOkEnv sampleSaga).summary.success = true ∧
    (execute_saga [] SharedDatabase.empty allOkEnv sampleSaga).summary.completed_steps
      = some sampleSaga.steps.length :=
  ⟨by decide,
   (C1_all_success [] SharedDatabase.empty allOkEnv sampleSaga (fun j _ => rfl)).1,
   (C1_all_success [] SharedDatabase.empty allOkEnv sampleSaga (fun j _ => rfl)).2.1 (by decide),
   (C1_all_success [] SharedDatabase.empty allOkEnv sampleSaga (fun j _ => rfl)).2.2.2.1,
   (C1_all_success [] SharedDatabase.empty allOkEnv sampleSaga (fun j _ => rfl)).2.2.2.2.2⟩

/-- Characterization of a whole `execute_saga` run on a fresh transaction
whose first failing invocation is step `i` (a failure the step contract
anticipates, not an unanticipated exception): the loop stops at `i`, the
reverse sweep compensates the completed prefix, and the run returns the
compensated failure summary. -/
theorem execute_saga_fail_run (active0 : List (String × SagaTransaction))
    (db0 : SharedDatabase) (env : SagaEnv) (t : SagaTransaction) (i : Nat)
    (hfresh : ∀ s ∈ t.steps, s.status = SagaStepStatus.pending)
    (hi : i < t.steps.length)
    (hok : ∀ j, j < i → (env.invoke j).isSuccess = true)
    (hfail : (env.invoke i).isFail = true) :
    (execute_saga active0 db0 env t).transaction.status = SagaTransactionStatus.compensated ∧
    (execute_saga active0 db0 env t).transaction.current_step_index = i ∧
    (execute_saga active0 db0 env t).transaction.steps.length = t.steps.length ∧
    (execute_saga active0 db0 env t).summary.success = false ∧
    (execute_saga active0 db0 env t).summary.status = "compensated" ∧
    (execute_saga active0 db0 env t).summary.failed_step = (t.steps[i]?).map SagaStep.name ∧
    (execute_saga active0 db0 env t).summary.rollback_completed = some true ∧
    (execute_saga active0 db0 env t).forwardCalls.map Prod.fst = List.range (i + 1) ∧
    ((execute_saga active0 db0 env t).compCalls.map Prod.fst =
      ((List.range i).filter (fun j => compensableAfter t env j)).reverse) ∧
    (∀ j, j < i → (execute_saga active0 db0 env t).transaction.steps[j]? =
      (t.steps[j]?).map (fun s =>
        compStep env.compensate j (markCompleted s ((env.invoke j).body) (env.stepTime j)))) ∧
    ((execute_saga active0 db0 env t).transaction.steps[i]? =
      (t.steps[i]?).map (stepOutcome env i)) ∧
    (∀ j, i < j → (execute_saga active0 db0 env t).transaction.steps[j]? = t.steps[j]?) := by
  have hs : t.steps[i]? = some (t.steps[i]) := List.getElem?_eq_getElem hi
  obtain ⟨t2, calls, heq, hmap, hid, hnm, hst, hmd, hlen, hidx, hpt⟩ :=
    sagaLoop_first_fail env (List.range i)
      { t with status := SagaTransactionStatus.in_progress, updated_at := env.now }
      i (List.range' (i + 1) (t.steps.length - i - 1))
      (fun j hj => Nat.lt_trans (List.mem_range.mp hj) hi)
      hi
      (fun j hj => hok j (List.mem_range.mp hj))
      hfail
      (range_concat_nodup i)
  have heq' : sagaLoop env
      { t with status := SagaTransactionStatus.in_progress, updated_at := env.now }
      (List.range t.steps.length)
      = LoopResult.failedAt t2 i
          (({ t with status := SagaTransactionStatus.in_progress, updated_at := env.now }
            : SagaTransaction).steps[i]).name calls := by
    rw [range_split i t.steps.length hi]
    exact heq
  have hlen2 : t2.steps.length = t.steps.length := hlen
  have hpt' : ∀ j : Nat, t2.steps[j]? =
      if j ∈ List.range i ++ [i] then (t.steps[j]?).map (stepOutcome env j)
      else t.steps[j]? := hpt
  have hstep_lt : ∀ j, j < i → t2.steps[j]? =
      (t.steps[j]?).map (fun s =>
        markCompleted s ((env.invoke j).body) (env.stepTime j)) := by
    intro j hj
    have hjn : j < t.steps.length := Nat.lt_trans hj hi
    rw [hpt' j, if_pos (by simp [List.mem_range, hj]),
      List.getElem?_eq_getElem hjn, Option.map_some', Option.map_some',
      stepOutcome_of_success env j _ (hok j hj)]
  have hstep_i : t2.steps[i]? = some (stepOutcome env i (t.steps[i])) := by
    rw [hpt' i, if_pos (by simp), hs, Option.map_some']
  have hstep_gt : ∀ j, i < j → t2.steps[j]? = t.steps[j]? := by
    intro j hj
    rw [hpt' j, if_neg (by simp [List.mem_range]; omega)]
  have hcompIdx : completedIdxs t2.steps = List.range i := by
    unfold completedIdxs
    rw [hlen2, range_split i t.steps.length hi, List.filter_append]
    have hpre : (List.range i).filter (completedPred t2.steps) = List.range i := by
      apply List.filter_eq_self.mpr
      intro j hj
      have hj' := List.mem_range.mp hj
      have hjn : j < t.steps.length := Nat.lt_trans hj' hi
      simp [completedPred, hstep_lt j hj', markCompleted, List.getElem?_eq_getElem hjn]
    have hhead : completedPred t2.steps i = false := by
      obtain ⟨err, herr⟩ := stepOutcome_of_fail env i (t.steps[i]) hfail
      simp [completedPred, hstep_i, herr, markFailed]
    have htail : (List.range' (i + 1) (t.steps.length - i - 1)).filter
        (completedPred t2.steps) = [] := by
      apply List.filter_eq_nil.mpr
      intro j hj
      obtain ⟨hle, hlt⟩ := List.mem_range'_1.mp hj
      have hjn : j < t.steps.length := by omega
      have hjp : (t.steps[j]).status = SagaStepStatus.pending :=
        hfresh (t.steps[j]) (List.getElem_mem hjn)
      simp [completedPred, hstep_gt j (by omega), List.getElem?_eq_getElem hjn, hjp]
    rw [hpre, List.filter_cons_of_neg (by rw [hhead]; exact Bool.false_ne_true), htail,
      List.append_nil]
  have hrun : execute_saga active0 db0 env t =
      { transaction :=
          { (execute_rollback { t2 with status := SagaTransactionStatus.compensating }
              env.compensate).1 with status := SagaTransactionStatus.compensated },
        db := (update_transaction
          (create_transaction db0
            [("id", RVal.str t.transaction_id),
             ("status", RVal.str t.status.value),
             ("steps", RVal.strList (t.steps.map SagaStep.name)),
             ("metadata", RVal.dict t.metadata)] env.dbFreshId env.now).1
          (execute_rollback { t2 with status := SagaTransactionStatus.compensating }
            env.compensate).1.transaction_id
          [("status", RVal.str SagaTransactionStatus.compensated.value),
           ("steps", RVal.stepList ((execute_rollback
              { t2 with status := SagaTransactionStatus.compensating }
              env.compensate).1.steps.map SagaStep.to_dict))] env.now).1,
        active := assocSet (assocSet active0 t.transaction_id t)
          (execute_rollback { t2 with status := SagaTransactionStatus.compensating }
            env.compensate).1.transaction_id
          { (execute_rollback { t2 with status := SagaTransactionStatus.compensating }
              env.compensate).1 with status := SagaTransactionStatus.compensated },
        summary := { success := false,
                     transaction_id := (execute_rollback
                       { t2 with status := SagaTransactionStatus.compensating }
                       env.compensate).1.transaction_id,
                     status := SagaTransactionStatus.compensated.value,
                     message := "Saga failed at step: " ++ (t.steps[i]).name,
                     failed_step := some ((t.steps[i]).name),
                     rollback_completed := some true },
        forwardCalls := calls,
        compCalls := (execute_rollback { t2 with status := SagaTransactionStatus.compensating }
          env.compensate).2 } := by
    simp only [execute_saga]
    rw [heq']
  obtain ⟨rid, rst, ridx, rlen, rmap, rpt⟩ :=
    execute_rollback_spec { t2 with status := SagaTransactionStatus.compensating } env.compensate
  have rlen' : (execute_rollback { t2 with status := SagaTransactionStatus.compensating }
      env.compensate).1.steps.length = t2.steps.length := rlen
  have ridx' : (execute_rollback { t2 with status := SagaTransactionStatus.compensating }
      env.compensate).1.current_step_index = t2.current_step_index := ridx
  have rmap' : (execute_rollback { t2 with status := SagaTransactionStatus.compensating }
      env.compensate).2.map Prod.fst = ((completedIdxs t2.steps).filter (sweepPred t2.steps)).reverse := rmap
  have rpt' : ∀ j : Nat, (execute_rollback { t2 with status := SagaTransactionStatus.compensating }
      env.compensate).1.steps[j]? =
      if j ∈ completedIdxs t2.steps then (t2.steps[j]?).map (compStep env.compensate j)
      else t2.steps[j]? := rpt
  have hsweep_eq : ∀ j ∈ List.range i, sweepPred t2.steps j = compensableAfter t env j := by
    intro j hj
    have hj' := List.mem_range.mp hj
    have hjn : j < t.steps.length := Nat.lt_trans hj' hi
    simp [sweepPred, compensableAfter, hstep_lt j hj', markCompleted,
      List.getElem?_eq_getElem hjn]
  refine ⟨by rw [hrun], ?_, ?_, by rw [hrun], by rw [hrun]; rfl, ?_, by rw [hrun], ?_, ?_, ?_, ?_, ?_⟩
  · rw [hrun]
    show (execute_rollback { t2 with status := SagaTransactionStatus.compensating }
      env.compensate).1.current_step_index = i
    rw [ridx']
    exact hidx
  · rw [hrun]
    show (execute_rollback { t2 with status := SagaTransactionStatus.compensating }
      env.compensate).1.steps.length = t.steps.length
    rw [rlen', hlen2]
  · rw [hrun, hs]
    rfl
  · rw [hrun]
    show calls.map Prod.fst = List.range (i + 1)
    rw [hmap, ← List.range_succ]
  · rw [hrun]
    show (execute_rollback { t2 with status := SagaTransactionStatus.compensating }
      env.compensate).2.map Prod.fst = ((List.range i).filter (fun j => compensableAfter t env j)).reverse
    rw [rmap', hcompIdx, List.filter_congr hsweep_eq]
  · intro j hj
    rw [hrun]
    show (execute_rollback { t2 with status := SagaTransactionStatus.compensating }
      env.compensate).1.steps[j]? = _
    have hjn : j < t.steps.length := Nat.lt_trans hj hi
    rw [rpt' j, hcompIdx, if_pos (List.mem_range.mpr hj), hstep_lt j hj,
      List.getElem?_eq_getElem hjn]
    simp
  · rw [hrun]
    show (execute_rollback { t2 with status := SagaTransactionStatus.compensating }
      env.compensate).1.steps[i]? = _
    rw [rpt' i, hcompIdx, if_neg (by simp), hstep_i, hs, Option.map_some']
  · intro j hj
    rw [hrun]
    show (execute_rollback { t2 with status := SagaTransactionStatus.compensating }
      env.compensate).1.steps[j]? = t.steps[j]?
    rw [rpt' j, hcompIdx, if_neg (by simp [List.mem_range]; omega), hstep_gt j hj]

theorem compStep_marks_compensated (comp : Nat → RollbackOutcome) (i : Nat) (s : SagaStep)
    (hg : (truthyStr s.rollback_url && truthyDict s.result) = true)
    (hok : (comp i).isOk = true) :
    compStep comp i s = { s with status := SagaStepStatus.compensated } := by
  unfold compStep
  rw [if_pos hg]
  cases hc : comp i with
  | response code =>
    rw [hc] at hok
    have h2 : code = 200 ∨ code = 204 := by
      rcases Bool.or_eq_true_iff.mp hok with h' | h'
      · exact Or.inl (by simpa using h')
      · exact Or.inr (by simpa using h')
    show (if code = 200 ∨ code = 204 then { s with status := SagaStepStatus.compensated } else s)
        = { s with status := SagaStepStatus.compensated }
    rw [if_pos h2]
  | requestExc msg =>
    rw [hc] at hok
    simp [RollbackOutcome.isOk] at hok

theorem compStep_of_not_ok (comp : Nat → RollbackOutcome) (i : Nat) (s : SagaStep)
    (hok : (comp i).isOk = false) :
    compStep comp i s = s := by
  unfold compStep
  split
  · cases hc : comp i with
    | response code =>
      rw [hc] at hok
      have h2 : ¬(code = 200 ∨ code = 204) := by
        intro hor
        rcases hor with h' | h' <;> subst h' <;> simp [RollbackOutcome.isOk] at hok
      show (if code = 200 ∨ code = 204 then { s with status := SagaStepStatus.compensated } else s) = s
      rw [if_neg h2]
    | requestExc msg => rfl
  · rfl

theorem markCompleted_guard (t : SagaTransaction) (env : SagaEnv) (j : Nat) (x : SagaStep)
    (hx : t.steps[j]? = some x) :
    (truthyStr (markCompleted x ((env.invoke j).body) (env.stepTime j)).rollback_url &&
     truthyDict (markCompleted x ((env.invoke j).body) (env.stepTime j)).result)
      = compensableAfter t env j := by
  simp [markCompleted, compensableAfter, hx]

/-- C2: when the first failing invocation is step `i` of a fresh saga, every
step before `i` is compensable (spec and truthy captured result) and its
compensation call succeeds, `execute_saga` ends with transaction status
`compensated`, steps `0..i-1` in status `compensated`, step `i` in status
`failed`, steps after `i` untouched in status `pending` and never invoked
(the forward calls are exactly steps `0..i`), and a summary with success
`false`, the failed step's name, and `rollback_completed` true. -/
theorem C2_mid_saga_failure (active0 : List (String × SagaTransaction))
    (db0 : SharedDatabase) (env : SagaEnv) (t : SagaTransaction) (i : Nat)
    (hfresh : ∀ s ∈ t.steps, s.status = SagaStepStatus.pending)
    (hi : i < t.steps.length)
    (hok : ∀ j, j < i → (env.invoke j).isSuccess = true)
    (hfail : (env.invoke i).isFail = true)
    (hcomp : ∀ j, j < i → compensableAfter t env j = true)
    (hcok : ∀ j, j < i → (env.compensate j).isOk = true) :
    (execute_saga active0 db0 env t).transaction.status = SagaTransactionStatus.compensated ∧
    (∀ j, j < i → ∀ s, (execute_saga active0 db0 env t).transaction.steps[j]? = some s →
      s.status = SagaStepStatus.compensated) ∧
    (∀ s, (execute_saga active0 db0 env t).transaction.steps[i]? = some s →
      s.status = SagaStepStatus.failed) ∧
    (∀ j, i < j → (execute_saga active0 db0 env t).transaction.steps[j]? = t.steps[j]?) ∧
    (∀ j, i < j → ∀ s, (execute_saga active0 db0 env t).transaction.steps[j]? = some s →
      s.status = SagaStepStatus.pending) ∧
    ((execute_saga active0 db0 env t).forwardCalls.map Prod.fst = List.range (i + 1)) ∧
    (execute_saga active0 db0 env t).summary.success = false ∧
    (execute_saga active0 db0 env t).summary.failed_step = (t.steps[i]?).map SagaStep.name ∧
    (execute_saga active0 db0 env t).summary.rollback_completed = some true := by
  obtain ⟨f1, f2, f3, f4, f5, f6, f7, f8, f9, f10, f11, f12⟩ :=
    execute_saga_fail_run active0 db0 env t i hfresh hi hok hfail
  refine ⟨f1, ?_, ?_, f12, ?_, f8, f4, f6, f7⟩
  · intro j hj s hsome
    have hjn : j < t.steps.length := Nat.lt_trans hj hi
    rw [f10 j hj, List.getElem?_eq_getElem hjn, Option.map_some'] at hsome
    have hseq := Option.some.inj hsome
    rw [← hseq,
      compStep_marks_compensated env.compensate j _
        (by rw [markCompleted_guard t env j _ (List.getElem?_eq_getElem hjn)]
            exact hcomp j hj)
        (hcok j hj)]
  · intro s hsome
    rw [f11, List.getElem?_eq_getElem hi, Option.map_some'] at hsome
    have hseq := Option.some.inj hsome
    obtain ⟨err, herr⟩ := stepOutcome_of_fail env i (t.steps[i]) hfail
    rw [← hseq, herr]
    rfl
  · intro j hj s hsome
    rw [f12 j hj] at hsome
    exact hfresh s (List.mem_iff_getElem?.mpr ⟨j, hsome⟩)

/-- Witness for C2: the four-step saga failing at step 2 (venue), with both
prior compensations succeeding. -/
theorem C2_witness :
    (execute_saga [] SharedDatabase.empty failAt2Env sampleSaga).transaction.status
      = SagaTransactionStatus.compensated ∧
    (execute_saga [] SharedDatabase.empty failAt2Env sampleSaga).forwardCalls.map Prod.fst
      = List.range 3 ∧
    (execute_saga [] SharedDatabase.empty failAt2Env sampleSaga).summary.success = false ∧
    (execute_saga [] SharedDatabase.empty failAt2Env sampleSaga).summary.failed_step
      = (sampleSaga.steps[2]?).map SagaStep.name ∧
    (execute_saga [] SharedDatabase.empty failAt2Env sampleSaga).summary.rollback_completed
      = some true :=
  ⟨(C2_mid_saga_failure [] SharedDatabase.empty failAt2Env sampleSaga 2
      (by decide) (by decide) (by decide) (by decide) (by decide) (by decide)).1,
   (C2_mid_saga_failure [] SharedDatabase.empty failAt2Env sampleSaga 2
      (by decide) (by decide) (by decide) (by decide) (by decide) (by decide)).2.2.2.2.2.1,
   (C2_mid_saga_failure [] SharedDatabase.empty failAt2Env sampleSaga 2
      (by decide) (by decide) (by decide) (by decide) (by decide) (by decide)).2.2.2.2.2.2.1,
   (C2_mid_saga_failure [] SharedDatabase.empty failAt2Env sampleSaga 2
      (by decide) (by decide) (by decide) (by decide) (by decide) (by decide)).2.2.2.2.2.2.2.1,
   (C2_mid_saga_failure [] SharedDatabase.empty failAt2Env sampleSaga 2
      (by decide) (by decide) (by decide) (by decide) (by decide) (by decide)).2.2.2.2.2.2.2.2⟩

/-- C3: during rollback the compensation calls visit exactly the compensable
completed steps, in the exact reverse of completion (list) order, and each
such step receives exactly one compensation attempt. -/
theorem C3_reverse_compensation (t : SagaTransaction) (comp : Nat → RollbackOutcome) :
    ((execute_rollback t comp).2.map Prod.fst =
      ((completedIdxs t.steps).filter (sweepPred t.steps)).reverse) ∧
    (∀ j, j ∈ completedIdxs t.steps → sweepPred t.steps j = true →
      ((execute_rollback t comp).2.map Prod.fst).count j = 1) := by
  obtain ⟨_, _, _, _, rmap, _⟩ := execute_rollback_spec t comp
  refine ⟨rmap, ?_⟩
  intro j hj hp
  rw [rmap]
  exact List.count_eq_one_of_mem
    (List.nodup_reverse.mpr ((completedIdxs_nodup t.steps).filter _))
    (List.mem_reverse.mpr (List.mem_filter.mpr ⟨hj, hp⟩))

/-- Witness for C3 on a concrete mid-rollback transaction with two
compensable completed steps. -/
theorem C3_witness :
    ((execute_rollback rbSaga (fun _ => RollbackOutcome.response 204)).2.map Prod.fst =
      ((completedIdxs rbSaga.steps).filter (sweepPred rbSaga.steps)).reverse) ∧
    ((execute_rollback rbSaga (fun _ => RollbackOutcome.response 204)).2.map Prod.fst).count 0 = 1 :=
  ⟨(C3_reverse_compensation rbSaga (fun _ => RollbackOutcome.response 204)).1,
   (C3_reverse_compensation rbSaga (fun _ => RollbackOutcome.response 204)).2 0
     (by decide) (by decide)⟩

/-- C7: in a rollback sweep over a fresh saga whose first failure is step
`i` with every earlier step compensable, every compensable completed step
receives exactly one best-effort compensation attempt no matter how the
compensation calls turn out, the final transaction status is `compensated`
regardless, and a step whose compensation call fails (non-success response
or transport error) is left in status `completed`, not `compensated`. -/
theorem C7_compensation_best_effort (active0 : List (String × SagaTransaction))
    (db0 : SharedDatabase) (env : SagaEnv) (t : SagaTransaction) (i : Nat)
    (hfresh : ∀ s ∈ t.steps, s.status = SagaStepStatus.pending)
    (hi : i < t.steps.length)
    (hok : ∀ j, j < i → (env.invoke j).isSuccess = true)
    (hfail : (env.invoke i).isFail = true)
    (hcomp : ∀ j, j < i → compensableAfter t env j = true) :
    ((execute_saga active0 db0 env t).compCalls.map Prod.fst = (List.range i).reverse) ∧
    (∀ j, j < i → ((execute_saga active0 db0 env t).compCalls.map Prod.fst).count j = 1) ∧
    (execute_saga active0 db0 env t).transaction.status = SagaTransactionStatus.compensated ∧
    (∀ j, j < i → (env.compensate j).isOk = false →
      ∀ s, (execute_saga active0 db0 env t).transaction.steps[j]? = some s →
        s.status = SagaStepStatus.completed) ∧
    (∀ j, j < i → (env.compensate j).isOk = true →
      ∀ s, (execute_saga active0 db0 env t).transaction.steps[j]? = some s →
        s.status = SagaStepStatus.compensated) := by
  obtain ⟨f1, f2, f3, f4, f5, f6, f7, f8, f9, f10, f11, f12⟩ :=
    execute_saga_fail_run active0 db0 env t i hfresh hi hok hfail
  have hfilter : (List.range i).filter (fun j => compensableAfter t env j) = List.range i :=
    List.filter_eq_self.mpr (fun j hj => hcomp j (List.mem_range.mp hj))
  have hmap : (execute_saga active0 db0 env t).compCalls.map Prod.fst = (List.range i).reverse := by
    rw [f9, hfilter]
  refine ⟨hmap, ?_, f1, ?_, ?_⟩
  · intro j hj
    rw [hmap]
    exact List.count_eq_one_of_mem
      (List.nodup_reverse.mpr (List.nodup_range i))
      (List.mem_reverse.mpr (List.mem_range.mpr hj))
  · intro j hj hnok s hsome
    have hjn : j < t.steps.length := Nat.lt_trans hj hi
    rw [f10 j hj, List.getElem?_eq_getElem hjn, Option.map_some'] at hsome
    have hseq := Option.some.inj hsome
    rw [← hseq, compStep_of_not_ok env.compensate j _ hnok]
    rfl
  · intro j hj hcomp_ok s hsome
    have hjn : j < t.steps.length := Nat.lt_trans hj hi
    rw [f10 j hj, List.getElem?_eq_getElem hjn, Option.map_some'] at hsome
    have hseq := Option.some.inj hsome
    rw [← hseq,
      compStep_marks_compensated env.compensate j _
        (by rw [markCompleted_guard t env j _ (List.getElem?_eq_getElem hjn)]
            exact hcomp j hj)
        hcomp_ok]

/-- Witness for C7: step 2 fails; step 0's compensation answers HTTP 500 and
step 1's succeeds — both are attempted, status is still `compensated`. -/
theorem C7_witness :
    ((execute_saga [] SharedDatabase.empty compFailEnv sampleSaga).compCalls.map Prod.fst
      = (List.range 2).reverse) ∧
    ((execute_saga [] SharedDatabase.empty compFailEnv sampleSaga).compCalls.map Prod.fst).count 0 = 1 ∧
    (execute_saga [] SharedDatabase.empty compFailEnv sampleSaga).transaction.status
      = SagaTransactionStatus.compensated :=
  ⟨(C7_compensation_best_effort [] SharedDatabase.empty compFailEnv sampleSaga 2
      (by decide) (by decide) (by decide) (by decide) (by decide)).1,
   (C7_compensation_best_effort [] SharedDatabase.empty compFailEnv sampleSaga 2
      (by decide) (by decide) (by decide) (by decide) (by decide)).2.1 0 (by decide),
   (C7_compensation_best_effort [] SharedDatabase.empty compFailEnv sampleSaga 2
      (by decide) (by decide) (by decide) (by decide) (by decide)).2.2.1⟩

/-- Final step records of an all-success run, pointwise: every step is its
fresh record pushed through `markCompleted` with its own response body and
timestamp. -/
theorem execute_saga_success_steps (active0 : List (String × SagaTransaction))
    (db0 : SharedDatabase) (env : SagaEnv) (t : SagaTransaction)
    (hok : ∀ j, j < t.steps.length → (env.invoke j).isSuccess = true) :
    ∀ j : Nat, (execute_saga active0 db0 env t).transaction.steps[j]? =
      (t.steps[j]?).map (fun s =>
        markCompleted s ((env.invoke j).body) (env.stepTime j)) := by
  obtain ⟨t', calls, heq, hmap, hid, hnm, hst, hmd, hlen, hidx, hpt⟩ :=
    sagaLoop_all_success env (List.range t.steps.length)
      { t with status := SagaTransactionStatus.in_progress, updated_at := env.now }
      (fun j hj => List.mem_range.mp hj)
      (fun j hj => hok j (List.mem_range.mp hj))
      (List.nodup_range _)
  have hpt' : ∀ j : Nat, t'.steps[j]? =
      if j ∈ List.range t.steps.length then (t.steps[j]?).map (stepOutcome env j)
      else t.steps[j]? := hpt
  have hrun : (execute_saga active0 db0 env t).transaction =
      { t' with status := SagaTransactionStatus.completed, updated_at := env.now } := by
    simp only [execute_saga]
    rw [heq]
  intro j
  rw [hrun]
  show t'.steps[j]? = _
  rw [hpt' j]
  by_cases hj : j < t.steps.length
  · rw [if_pos (List.mem_range.mpr hj), List.getElem?_eq_getElem hj,
      Option.map_some', Option.map_some', stepOutcome_of_success env j _ (hok j hj)]
  · rw [if_neg (fun h => hj (List.mem_range.mp h)), List.getElem?_eq_none (by omega)]
    rfl

/-- Characterization of an `execute_saga` run whose step `i` raises an
exception that is not a `RequestException` after a successful prefix: the
transaction ends `failed`, no compensation is attempted, steps before `i`
stay `completed`, step `i` is left `in_progress`, later steps untouched. -/
theorem execute_saga_exc_run (active0 : List (String × SagaTransaction))
    (db0 : SharedDatabase) (env : SagaEnv) (t : SagaTransaction) (i : Nat) (msg : String)
    (hi : i < t.steps.length)
    (hok : ∀ j, j < i → (env.invoke j).isSuccess = true)
    (hexc : env.invoke i = CallOutcome.otherExc msg) :
    (execute_saga active0 db0 env t).transaction.status = SagaTransactionStatus.failed ∧
    (execute_saga active0 db0 env t).compCalls = [] ∧
    (execute_saga active0 db0 env t).summary.success = false ∧
    (execute_saga active0 db0 env t).summary.status = "failed" ∧
    (execute_saga active0 db0 env t).summary.message = "Saga execution failed: " ++ msg ∧
    (∀ j, j < i → (execute_saga active0 db0 env t).transaction.steps[j]? =
      (t.steps[j]?).map (fun s =>
        markCompleted s ((env.invoke j).body) (env.stepTime j))) ∧
    ((execute_saga active0 db0 env t).transaction.steps[i]? =
      (t.steps[i]?).map (fun s => { s with status := SagaStepStatus.in_progress })) ∧
    (∀ j, i < j → (execute_saga active0 db0 env t).transaction.steps[j]? = t.steps[j]?) := by
  obtain ⟨t2, calls, heq, hmap, hid, hnm, hst, hmd, hlen, hidx, hpt⟩ :=
    sagaLoop_first_exc env (List.range i)
      { t with status := SagaTransactionStatus.in_progress, updated_at := env.now }
      i (List.range' (i + 1) (t.steps.length - i - 1)) msg
      (fun j hj => Nat.lt_trans (List.mem_range.mp hj) hi)
      hi
      (fun j hj => hok j (List.mem_range.mp hj))
      hexc
      (range_concat_nodup i)
  have heq' : sagaLoop env
      { t with status := SagaTransactionStatus.in_progress, updated_at := env.now }
      (List.range t.steps.length) = LoopResult.excAt t2 msg calls := by
    rw [range_split i t.steps.length hi]
    exact heq
  have hpt' : ∀ j : Nat, t2.steps[j]? =
      if j ∈ List.range i ++ [i] then (t.steps[j]?).map (stepOutcome env j)
      else t.steps[j]? := hpt
  have hrun : execute_saga active0 db0 env t =
      { transaction := { t2 with status := SagaTransactionStatus.failed },
        db := (update_transaction
          (create_transaction db0
            [("id", RVal.str t.transaction_id),
             ("status", RVal.str t.status.value),
             ("steps", RVal.strList (t.steps.map SagaStep.name)),
             ("metadata", RVal.dict t.metadata)] env.dbFreshId env.now).1
          t2.transaction_id
          [("status", RVal.str SagaTransactionStatus.failed.value),
           ("error", RVal.str msg)] env.now).1,
        active := assocSet (assocSet active0 t.transaction_id t) t2.transaction_id
          { t2 with status := SagaTransactionStatus.failed },
        summary := { success := false,
                     transaction_id := t2.transaction_id,
                     status := SagaTransactionStatus.failed.value,
                     message := "Saga execution failed: " ++ msg },
        forwardCalls := calls, compCalls := [] } := by
    simp only [execute_saga]
    rw [heq']
  refine ⟨by rw [hrun], by rw [hrun], by rw [hrun], by rw [hrun]; rfl, by rw [hrun], ?_, ?_, ?_⟩
  · intro j hj
    have hjn : j < t.steps.length := Nat.lt_trans hj hi
    rw [hrun]
    show t2.steps[j]? = _
    rw [hpt' j, if_pos (by simp [List.mem_range, hj]),
      List.getElem?_eq_getElem hjn, Option.map_some', Option.map_some',
      stepOutcome_of_success env j _ (hok j hj)]
  · rw [hrun]
    show t2.steps[i]? = _
    rw [hpt' i, if_pos (by simp), List.getElem?_eq_getElem hi,
      Option.map_some', Option.map_some']
    have : stepOutcome env i (t.steps[i]) =
        { t.steps[i] with status := SagaStepStatus.in_progress } := by
      simp [stepOutcome, hexc]
    rw [this]
  · intro j hj
    rw [hrun]
    show t2.steps[j]? = t.steps[j]?
    rw [hpt' j, if_neg (by simp [List.mem_range]; omega)]

theorem compStep_cases (comp : Nat → RollbackOutcome) (i : Nat) (s : SagaStep) :
    compStep comp i s = s ∨ compStep comp i s = { s with status := SagaStepStatus.compensated } := by
  by_cases hok : (comp i).isOk = true
  · by_cases hg : (truthyStr s.rollback_url && truthyDict s.result) = true
    · exact Or.inr (compStep_marks_compensated comp i s hg hok)
    · exact Or.inl (compStep_of_guard_false comp i s (Bool.eq_false_iff.mpr hg))
  · exact Or.inl (compStep_of_not_ok comp i s (Bool.eq_false_iff.mpr hok))

theorem first_bad_split (env : SagaEnv) (n : Nat) :
    (∀ j, j < n → (env.invoke j).isSuccess = true) ∨
    (∃ i, i < n ∧ (∀ j, j < i → (env.invoke j).isSuccess = true) ∧
      (env.invoke i).isSuccess = false) := by
  by_cases h : ∀ j, j < n → (env.invoke j).isSuccess = true
  · exact Or.inl h
  · right
    push_neg at h
    obtain ⟨j0, hj0, hbad⟩ := h
    have hex : ∃ m, m < n ∧ (env.invoke m).isSuccess = false :=
      ⟨j0, hj0, Bool.eq_false_iff.mpr hbad⟩
    refine ⟨Nat.find hex, (Nat.find_spec hex).1, ?_, (Nat.find_spec hex).2⟩
    intro j hj
    by_contra hc
    exact Nat.find_min hex hj
      ⟨Nat.lt_trans hj (Nat.find_spec hex).1, Bool.eq_false_iff.mpr hc⟩

theorem not_success_cases (env : SagaEnv) (i : Nat)
    (h : (env.invoke i).isSuccess = false) :
    (env.invoke i).isFail = true ∨ ∃ msg, env.invoke i = CallOutcome.otherExc msg := by
  cases ho : env.invoke i with
  | response code body text =>
    left
    rw [ho] at h
    simp only [CallOutcome.isSuccess] at h
    simp only [CallOutcome.isFail, h]
    rfl
  | requestExc msg => left; rfl
  | otherExc msg => right; exact ⟨msg, rfl⟩

theorem stepInv_fresh (time : String) (x : SagaStep) (hx : freshStep x) :
    StepInv time x := by
  obtain ⟨h1, h2, h3, h4⟩ := hx
  refine ⟨Or.inl h2, ?_⟩
  rw [h4, if_pos (Or.inl h1)]

theorem stepInv_markCompleted (time : String) (b : Dict) (x : SagaStep) (hx : freshStep x) :
    StepInv time (markCompleted x b time) := by
  obtain ⟨h1, h2, h3, h4⟩ := hx
  exact ⟨Or.inr (by simp [markCompleted, h3]), by simp [markCompleted]⟩

theorem stepInv_compensated (time : String) (b : Dict) (x : SagaStep) (hx : freshStep x) :
    StepInv time { markCompleted x b time with status := SagaStepStatus.compensated } := by
  obtain ⟨h1, h2, h3, h4⟩ := hx
  exact ⟨Or.inr (by simp [markCompleted, h3]), by simp [markCompleted]⟩

theorem stepInv_markFailed (time err : String) (x : SagaStep) (hx : freshStep x) :
    StepInv time (markFailed x err time) := by
  obtain ⟨h1, h2, h3, h4⟩ := hx
  exact ⟨Or.inl (by simp [markFailed, h2]), by simp [markFailed]⟩

theorem stepInv_inprogress (time : String) (x : SagaStep) (hx : freshStep x) :
    StepInv time { x with status := SagaStepStatus.in_progress } := by
  obtain ⟨h1, h2, h3, h4⟩ := hx
  exact ⟨Or.inl h2, by simp [h4]⟩

/-- C8: over a whole `execute_saga` run starting from fresh steps, every
final step record has its captured result and captured error mutually
exclusive, and carries a completion timestamp — the one stamped at its own
terminal forward transition — exactly when it reached `completed`, `failed`
or `compensated`; steps still `pending` or `in_progress` have none, and
compensation never rewrites the timestamp. -/
theorem C8_step_invariants (active0 : List (String × SagaTransaction))
    (db0 : SharedDatabase) (env : SagaEnv) (t : SagaTransaction)
    (hfresh : ∀ s ∈ t.steps, freshStep s) :
    ∀ (j : Nat) (s : SagaStep),
      (execute_saga active0 db0 env t).transaction.steps[j]? = some s →
      StepInv (env.stepTime j) s := by
  intro j s hsome
  rcases first_bad_split env t.steps.length with hall | ⟨i, hi, hok, hbad⟩
  · rw [execute_saga_success_steps active0 db0 env t hall j] at hsome
    cases hx : t.steps[j]? with
    | none => rw [hx] at hsome; cases hsome
    | some x =>
      rw [hx, Option.map_some'] at hsome
      have hfx : freshStep x := hfresh x (List.mem_iff_getElem?.mpr ⟨j, hx⟩)
      rw [← Option.some.inj hsome]
      exact stepInv_markCompleted _ _ x hfx
  · rcases not_success_cases env i hbad with hfail | ⟨msg, hexc⟩
    · obtain ⟨f1, f2, f3, f4, f5, f6, f7, f8, f9, f10, f11, f12⟩ :=
        execute_saga_fail_run active0 db0 env t i
          (fun s hs => (hfresh s hs).1) hi hok hfail
      rcases Nat.lt_trichotomy j i with hj | hj | hj
      · rw [f10 j hj] at hsome
        cases hx : t.steps[j]? with
        | none => rw [hx] at hsome; cases hsome
        | some x =>
          rw [hx, Option.map_some'] at hsome
          have hfx : freshStep x := hfresh x (List.mem_iff_getElem?.mpr ⟨j, hx⟩)
          rw [← Option.some.inj hsome]
          rcases compStep_cases env.compensate j
              (markCompleted x ((env.invoke j).body) (env.stepTime j)) with hcs | hcs
          · rw [hcs]
            exact stepInv_markCompleted _ _ x hfx
          · rw [hcs]
            exact stepInv_compensated _ _ x hfx
      · subst hj
        rw [f11] at hsome
        cases hx : t.steps[j]? with
        | none => rw [hx] at hsome; cases hsome
        | some x =>
          rw [hx, Option.map_some'] at hsome
          have hfx : freshStep x := hfresh x (List.mem_iff_getElem?.mpr ⟨j, hx⟩)
          obtain ⟨err, herr⟩ := stepOutcome_of_fail env j x hfail
          rw [← Option.some.inj hsome, herr]
          exact stepInv_markFailed _ _ x hfx
      · rw [f12 j hj] at hsome
        exact stepInv_fresh _ s (hfresh s (List.mem_iff_getElem?.mpr ⟨j, hsome⟩))
    · obtain ⟨e1, e2, e3, e4, e5, e6, e7, e8⟩ :=
        execute_saga_exc_run active0 db0 env t i msg hi hok hexc
      rcases Nat.lt_trichotomy j i with hj | hj | hj
      · rw [e6 j hj] at hsome
        cases hx : t.steps[j]? with
        | none => rw [hx] at hsome; cases hsome
        | some x =>
          rw [hx, Option.map_some'] at hsome
          have hfx : freshStep x := hfresh x (List.mem_iff_getElem?.mpr ⟨j, hx⟩)
          rw [← Option.some.inj hsome]
          exact stepInv_markCompleted _ _ x hfx
      · subst hj
        rw [e7] at hsome
        cases hx : t.steps[j]? with
        | none => rw [hx] at hsome; cases hsome
        | some x =>
          rw [hx, Option.map_some'] at hsome
          have hfx : freshStep x := hfresh x (List.mem_iff_getElem?.mpr ⟨j, hx⟩)
          rw [← Option.some.inj hsome]
          exact stepInv_inprogress _ x hfx
      · rw [e8 j hj] at hsome
        exact stepInv_fresh _ s (hfresh s (List.mem_iff_getElem?.mpr ⟨j, hsome⟩))

/-- Witness for C8 at step 0 of the all-success run on the concrete saga. -/
theorem C8_witness :
    (execute_saga [] SharedDatabase.empty allOkEnv sampleSaga).transaction.steps[0]? =
      some (markCompleted
        (sampleStep ("s1") ("Event Registration") ("u1") [] (some ("r1/\x7bevent_id\x7d")))
        [(("event_id"), ("E0"))] ("T0")) ∧
    StepInv (allOkEnv.stepTime 0)
      (markCompleted
        (sampleStep ("s1") ("Event Registration") ("u1") [] (some ("r1/\x7bevent_id\x7d")))
        [(("event_id"), ("E0"))] ("T0")) :=
  ⟨by decide,
   C8_step_invariants [] SharedDatabase.empty allOkEnv sampleSaga (by decide) 0
     (markCompleted
       (sampleStep ("s1") ("Event Registration") ("u1") [] (some ("r1/\x7bevent_id\x7d")))
       [(("event_id"), ("E0"))] ("T0"))
     (by decide)⟩

/-- C5 (the code at the failing input): during a fully successful run of the
concrete saga `tx-1`, `create_transaction` stores the Registry record under
its own freshly generated uuid (`uuid-db`) and ignores the `'id'` the
orchestrator passes, so `get_transaction` with the saga's own id returns
absent, the record that does exist still holds its creation-time status
`"pending"` after the run completed (every terminal-state update was issued
against the saga's id and silently returned `False`), and a further update
keyed by the saga's id also returns `False`. -/
theorem C5_registry_keying :
    sampleSaga.transaction_id = "tx-1" ∧
    allOkEnv.dbFreshId = "uuid-db" ∧
    (execute_saga [] SharedDatabase.empty allOkEnv sampleSaga).transaction.status
      = SagaTransactionStatus.completed ∧
    get_transaction (execute_saga [] SharedDatabase.empty allOkEnv sampleSaga).db ("tx-1") = none ∧
    ((get_transaction (execute_saga [] SharedDatabase.empty allOkEnv sampleSaga).db
      ("uuid-db")).isSome = true) ∧
    assocGet ((get_transaction (execute_saga [] SharedDatabase.empty allOkEnv sampleSaga).db
      ("uuid-db")).getD []) ("status") = some (RVal.str ("pending")) ∧
    (update_transaction (execute_saga [] SharedDatabase.empty allOkEnv sampleSaga).db ("tx-1")
      [(("status"), RVal.str ("completed"))] ("LATER")).2 = false := by
  refine ⟨rfl, rfl, by decide, by decide, by decide, by decide, by decide⟩

/-- C6 (the code at the failing input): when the first step's invocation
raises an exception that is not a `RequestException`, `execute_saga` (a
total function in this embedding — it never raises) returns the structured
failure summary, sets the transaction status to `failed`, attempts no
compensation — but the error is NOT persisted: the Registry holds no record
under the transaction's id (the record lives under the generated uuid, with
no `error` key and status still `"pending"`), because `create_transaction`
ignored the id the orchestrator supplied. -/
theorem C6_unexpected_exception :
    (execute_saga [] SharedDatabase.empty excEnv sampleSaga).transaction.status
      = SagaTransactionStatus.failed ∧
    (execute_saga [] SharedDatabase.empty excEnv sampleSaga).summary.success = false ∧
    (execute_saga [] SharedDatabase.empty excEnv sampleSaga).summary.status = "failed" ∧
    (execute_saga [] SharedDatabase.empty excEnv sampleSaga).summary.message
      = "Saga execution failed: boom" ∧
    (execute_saga [] SharedDatabase.empty excEnv sampleSaga).compCalls = [] ∧
    get_transaction (execute_saga [] SharedDatabase.empty excEnv sampleSaga).db ("tx-1") = none ∧
    assocGet ((get_transaction (execute_saga [] SharedDatabase.empty excEnv sampleSaga).db
      ("uuid-db")).getD []) ("error") = none ∧
    assocGet ((get_transaction (execute_saga [] SharedDatabase.empty excEnv sampleSaga).db
      ("uuid-db")).getD []) ("status") = some (RVal.str ("pending")) := by
  refine ⟨by decide, by decide, by decide, by decide, by decide, by decide, by decide, by decide⟩

end SagaDemo
